import Mathlib

/-!
Verification development for the OTLP logs exporter configuration engine
(`exporters/otlp/otlplogs`): the layered configuration resolution
(defaults, environment variables, caller options), URL-path normalization,
transport-specific finalization for gRPC, and the exporter shutdown
contract.

Shallow embedding conventions:
* Go strings are Lean `String`s; byte-level work is done on `String.data`.
* Go `time.Duration` is `Int` (nanoseconds).
* Fallible parsing returns `Option`.
* Collaborators from the Go standard library (`path.Clean`,
  `strings.TrimSpace`, `path.Join`, `net/url` parsing) are embedded
  faithfully to their documented lexical behavior.
-/

/-! ## Go standard-library collaborators: whitespace trimming -/

/-- The whitespace characters trimmed by Go's `strings.TrimSpace`: the
full `unicode.IsSpace` set (the White_Space property) — `\t`–`\r`,
space, NEL, NBSP, OGHAM SPACE MARK, the EN QUAD–HAIR SPACE range, LINE
and PARAGRAPH SEPARATOR, NARROW NO-BREAK SPACE, MEDIUM MATHEMATICAL
SPACE, and IDEOGRAPHIC SPACE. -/
def isSpaceChar (c : Char) : Bool :=
  c = ' ' || c = '\t' || c = '\n' || c = '\x0b' || c = '\x0c' || c = '\r'
    || c.toNat = 0x85 || c.toNat = 0xA0 || c.toNat = 0x1680
    || (0x2000 ≤ c.toNat && c.toNat ≤ 0x200A)
    || c.toNat = 0x2028 || c.toNat = 0x2029 || c.toNat = 0x202F
    || c.toNat = 0x205F || c.toNat = 0x3000

/-- Trim whitespace from the front of a character list. -/
def trimLeftChars (cs : List Char) : List Char := cs.dropWhile isSpaceChar

/-- Trim whitespace from the back of a character list. -/
def trimRightChars (cs : List Char) : List Char :=
  (cs.reverse.dropWhile isSpaceChar).reverse

/-- Go's `strings.TrimSpace` on the character-list representation. -/
def trimChars (cs : List Char) : List Char := trimRightChars (trimLeftChars cs)

/-- Go's `strings.TrimSpace`. -/
def trimSpace (s : String) : String := ⟨trimChars s.data⟩

/-! ## Go standard-library collaborators: lexical path cleaning

Go's `path.Clean` is embedded by its segment semantics: split on `'/'`,
drop empty and `"."` segments, resolve `".."` against a stack (a rooted
path consumes `".."` at the root; an unrooted path keeps a prefix of
`".."` segments), then rejoin, returning `"."` for an empty result. -/

/-- Split a character list on `'/'`; adjacent separators yield empty
segments.  The result is always nonempty. -/
def splitOnSlash : List Char → List (List Char)
  | [] => [[]]
  | c :: cs =>
    if c = '/' then [] :: splitOnSlash cs
    else (splitOnSlash cs).modifyHead (c :: ·)

/-- The `".."` path segment. -/
def dotdotSeg : List Char := ['.', '.']

/-- The `"."` path segment. -/
def dotSeg : List Char := ['.']

/-- One step of `path.Clean`'s segment processing: `st` is the stack of
output segments so far. -/
def normStep (rooted : Bool) (st : List (List Char)) (seg : List Char) :
    List (List Char) :=
  if seg = [] ∨ seg = dotSeg then st
  else if seg = dotdotSeg then
    match st.getLast? with
    | some l =>
      if l = dotdotSeg then (if rooted then st else st ++ [dotdotSeg])
      else st.dropLast
    | none => if rooted then st else st ++ [dotdotSeg]
  else st ++ [seg]

/-- `path.Clean`'s segment resolution. -/
def normSegs (rooted : Bool) (segs : List (List Char)) : List (List Char) :=
  segs.foldl (normStep rooted) []

/-- Join segments with `'/'` separators. -/
def joinSegs : List (List Char) → List Char
  | [] => []
  | [s] => s
  | s :: rest => s ++ '/' :: joinSegs rest

/-- Render a cleaned path from its rootedness and segments. -/
def renderSegs (rooted : Bool) (segs : List (List Char)) : List Char :=
  (if rooted then ['/'] else []) ++ joinSegs segs

/-- Go's `path.Clean`. -/
def goClean (s : String) : String :=
  match s.data with
  | [] => "."
  | c :: cs =>
    let rooted := c = '/'
    let r := renderSegs rooted (normSegs rooted (splitOnSlash (c :: cs)))
    if r = [] then "." else ⟨r⟩

/-- Go's `path.IsAbs`. -/
def goIsAbs (s : String) : Bool := s.data.head? = some '/'

/-- Go's `path.Join` restricted to two elements, as used by the source. -/
def pathJoin (a b : String) : String :=
  if a = "" then (if b = "" then "" else goClean b)
  else if b = "" then goClean a
  else goClean (a ++ "/" ++ b)

/-! ## `cleanPath` (otlpconfig/options.go) -/

/-- `cleanPath` from `internal/otlpconfig/options.go`: trim surrounding
space, clean lexically, substitute the default when the result is `"."`,
and force absoluteness. -/
def cleanPath (urlPath : String) (defaultPath : String) : String :=
  let tmp := goClean (trimSpace urlPath)
  if tmp = "." then defaultPath
  else if ¬ goIsAbs tmp then "/" ++ tmp
  else tmp

/-- `CleanPath` from `internal/otlpconfig/options.go` (the exported twin of
`cleanPath`, with an identical body; it is the one `NewHTTPConfig` calls). -/
def CleanPath (urlPath : String) (defaultPath : String) : String :=
  let tmp := goClean (trimSpace urlPath)
  if tmp = "." then defaultPath
  else if ¬ goIsAbs tmp then "/" ++ tmp
  else tmp

/-! ## Configuration data model (otlpconfig) -/

/-- `Protocol` is a string type in the source (`type Protocol string`). -/
abbrev Protocol := String

/-- `ExporterProtocolGrpc` ("grpc"). -/
def ExporterProtocolGrpc : Protocol := "grpc"

/-- `ExporterProtocolHttpProtobuf` ("http/protobuf"). -/
def ExporterProtocolHttpProtobuf : Protocol := "http/protobuf"

/-- `ExporterProtocolHttpJson` ("http/json"). -/
def ExporterProtocolHttpJson : Protocol := "http/json"

/-- `Compression` is an integer type in the source (`type Compression int`). -/
abbrev Compression := Int

/-- `NoCompression` (0). -/
def NoCompression : Compression := 0

/-- `GzipCompression` (1). -/
def GzipCompression : Compression := 1

/-- Go `time.Duration`: nanoseconds. -/
abbrev Duration := Int

/-- One second in `Duration` units. -/
def durSecond : Duration := 1000000000

/-- One millisecond in `Duration` units. -/
def durMillisecond : Duration := 1000000

/-- `DefaultTimeout` (10 seconds). -/
def DefaultTimeout : Duration := 10 * durSecond

/-- `DefaultLogsPath`. -/
def DefaultLogsPath : String := "/v1/logs"

/-- A root-CA certificate pool; modelled abstractly by the PEM bytes it
was created from (the `x509.CertPool` collaborator is opaque here). -/
abbrev CertPool := String

/-- A client certificate/key pair (`tls.Certificate`), modelled by the
PEM bytes it was created from. -/
abbrev ClientCert := String × String

/-- The fields of Go's `tls.Config` that this code touches. -/
structure TLSConfig where
  rootCAs : Option CertPool := none
  certificates : List ClientCert := []
deriving DecidableEq

/-- gRPC transport credentials (`credentials.TransportCredentials`):
either TLS credentials built from an optional `tls.Config`
(`credentials.NewTLS`), or the insecure credentials
(`insecure.NewCredentials`). -/
inductive GRPCCreds
  | tlsCreds (cfg : Option TLSConfig)
  | insecureCreds
deriving DecidableEq

/-- Header mapping parsed from `k1=v1,k2=v2` (Go `map[string]string`;
represented by the parsed key/value list). -/
abbrev Headers := List (String × String)

/-- gRPC dial options appended by `NewGRPCConfig`, tagged by constructor. -/
inductive DialOption
  | userAgent (ua : String)
  | defaultServiceConfig (sc : String)
  | transportCredentials (c : GRPCCreds)
  | useCompressor (compressorName : String)
  | connectParams (minConnectTimeout : Duration)
deriving DecidableEq

/-- Modelled from the spec: `retry.Config` from `internal/retry` is not in
the provided sources; the spec treats it as an opaque value (initial
interval, max interval, max elapsed time) carried through untouched. -/
structure RetryConfig where
  enabled : Bool := false
  initialInterval : Duration := 0
  maxInterval : Duration := 0
  maxElapsedTime : Duration := 0
deriving DecidableEq

/-- Modelled from the spec: `retry.DefaultConfig` ("the default retry
policy will retry after 5 seconds ... for a total of 1 minute"). -/
def defaultRetryConfig : RetryConfig :=
  { enabled := true
    initialInterval := 5 * durSecond
    maxInterval := 30 * durSecond
    maxElapsedTime := 60 * durSecond }

/-- `SignalConfig` from `internal/otlpconfig/options.go`. -/
structure SignalConfig where
  endpoint : String := ""
  protocol : Protocol := ""
  insecure : Bool := false
  tlsCfg : Option TLSConfig := none
  headers : Option Headers := none
  compression : Compression := 0
  timeout : Duration := 0
  urlPath : String := ""
  grpcCredentials : Option GRPCCreds := none
  httpClient : Option Unit := none
deriving DecidableEq

/-- `Config` from `internal/otlpconfig/options.go`. -/
structure Config where
  logs : SignalConfig := {}
  retryConfig : RetryConfig := {}
  reconnectionPeriod : Duration := 0
  serviceConfig : String := ""
  dialOptions : List DialOption := []
  grpcConn : Option Unit := none
deriving DecidableEq

/-! ## The option application system (otlpconfig) -/

/-- A `GenericOption` applies to both drivers (one function per driver;
`genericOption` stores one function used for both, `splitOption` two). -/
structure GenericOption where
  applyHTTPOption : Config → Config
  applyGRPCOption : Config → Config

/-- An `HTTPOption` applies only to the HTTP driver. -/
structure HTTPOption where
  applyHTTPOption : Config → Config

/-- A `GRPCOption` applies only to the gRPC driver. -/
structure GRPCOption where
  applyGRPCOption : Config → Config

/-- `newGenericOption`: the same mutation for both transports. -/
def newGenericOption (fn : Config → Config) : GenericOption := ⟨fn, fn⟩

/-- `newSplitOption`: distinct mutations for HTTP and gRPC. -/
def newSplitOption (httpFn grpcFn : Config → Config) : GenericOption :=
  ⟨httpFn, grpcFn⟩

/-- `NewHTTPOption`. -/
def NewHTTPOption (fn : Config → Config) : HTTPOption := ⟨fn⟩

/-- `NewGRPCOption`. -/
def NewGRPCOption (fn : Config → Config) : GRPCOption := ⟨fn⟩

/-- `WithEndpoint`. -/
def WithEndpoint (endpoint : String) : GenericOption :=
  newGenericOption fun cfg => { cfg with logs := { cfg.logs with endpoint := endpoint } }

/-- `WithCompression`. -/
def WithCompression (compression : Compression) : GenericOption :=
  newGenericOption fun cfg => { cfg with logs := { cfg.logs with compression := compression } }

/-- `WithURLPath`. -/
def WithURLPath (urlPath : String) : GenericOption :=
  newGenericOption fun cfg => { cfg with logs := { cfg.logs with urlPath := urlPath } }

/-- `WithRetry`. -/
def WithRetry (rc : RetryConfig) : GenericOption :=
  newGenericOption fun cfg => { cfg with retryConfig := rc }

/-- `WithTLSClientConfig`: a split option; the HTTP driver stores a clone
of the `tls.Config`, the gRPC driver wraps it into transport credentials. -/
def WithTLSClientConfig (tlsCfg : TLSConfig) : GenericOption :=
  newSplitOption
    (fun cfg => { cfg with logs := { cfg.logs with tlsCfg := some tlsCfg } })
    (fun cfg => { cfg with logs := { cfg.logs with grpcCredentials := some (.tlsCreds (some tlsCfg)) } })

/-- `WithInsecure`. -/
def WithInsecure : GenericOption :=
  newGenericOption fun cfg => { cfg with logs := { cfg.logs with insecure := true } }

/-- `WithSecure`. -/
def WithSecure : GenericOption :=
  newGenericOption fun cfg => { cfg with logs := { cfg.logs with insecure := false } }

/-- `WithHeaders`. -/
def WithHeaders (headers : Headers) : GenericOption :=
  newGenericOption fun cfg => { cfg with logs := { cfg.logs with headers := some headers } }

/-- `WithTimeout`. -/
def WithTimeout (duration : Duration) : GenericOption :=
  newGenericOption fun cfg => { cfg with logs := { cfg.logs with timeout := duration } }

/-- `WithProtocol`. -/
def WithProtocol (protocol : Protocol) : GenericOption :=
  newGenericOption fun cfg => { cfg with logs := { cfg.logs with protocol := protocol } }

/-- `WithHTTPClient`. -/
def WithHTTPClient (c : Unit) : GenericOption :=
  newGenericOption fun cfg => { cfg with logs := { cfg.logs with httpClient := some c } }

/-! ## Environment options reader

`internal/envconfig` is not among the provided sources; the reader is
modelled from the spec (§4.2, §6): namespaced variables, per-signal
override, trim-and-skip-if-empty presence test, and per-variable parsers
that abandon the variable on malformed input. -/

/-- Modelled from the spec: `envconfig.EnvOptionsReader` — an environment
snapshot (`GetEnv`), a file reader for certificate material (`ReadFile`,
`none` = unreadable), and the variable namespace. -/
structure EnvOptionsReader where
  getEnv : String → String
  readFile : String → Option String
  ns : String

/-- Modelled from the spec: the full variable name `<NAMESPACE>_<KEY>`. -/
def keyWithNamespace (e : EnvOptionsReader) (k : String) : String :=
  e.ns ++ "_" ++ k

/-- Modelled from the spec: `GetEnvValue` — read a namespaced variable,
trim surrounding whitespace, and treat an empty result as absent. -/
def getEnvValue (e : EnvOptionsReader) (k : String) : Option String :=
  let v := trimSpace (e.getEnv (keyWithNamespace e k))
  if v = "" then none else some v

/-- Go's ASCII lowercasing of a single character (`strings.ToLower`
restricted to the ASCII range used by schemes and protocol names). -/
def charToLowerGo (c : Char) : Char :=
  if 'A' ≤ c ∧ c ≤ 'Z' then Char.ofNat (c.toNat + 32) else c

/-- Go's `strings.ToLower` (ASCII fragment). -/
def toLowerGo (s : String) : String := ⟨s.data.map charToLowerGo⟩

/-- A parsed `net/url.URL`, restricted to the fields the source uses. -/
structure URL where
  scheme : String
  host : String
  path : String
deriving DecidableEq

/-- Scan for the first `"://"` and split the input into the scheme before
it and the remainder after it. -/
def splitSchemeAux : List Char → Option (List Char × List Char)
  | [] => none
  | ':' :: '/' :: '/' :: rest => some ([], rest)
  | c :: cs => (splitSchemeAux cs).map fun p => (c :: p.1, p.2)

/-- Modelled from the spec: `net/url.Parse` restricted to the
`scheme://host/path` and bare-path forms the endpoint variables use.  A
`"://"` with an empty scheme is a parse error; an input without `"://"`
parses as a path-only URL (empty scheme and host), as `url.Parse` does. -/
def parseURL (s : String) : Option URL :=
  match splitSchemeAux s.data with
  | none => some { scheme := "", host := "", path := s }
  | some (sch, rest) =>
    if sch = [] then none
    else
      let h := rest.takeWhile (· ≠ '/')
      let p := rest.dropWhile (· ≠ '/')
      some { scheme := ⟨sch⟩, host := ⟨h⟩, path := ⟨p⟩ }

/-- Modelled from the spec: `strconv.ParseBool`, accepted spellings. -/
def parseBool (s : String) : Option Bool :=
  if s = "1" ∨ s = "t" ∨ s = "T" ∨ s = "TRUE" ∨ s = "true" ∨ s = "True" then some true
  else if s = "0" ∨ s = "f" ∨ s = "F" ∨ s = "FALSE" ∨ s = "false" ∨ s = "False" then some false
  else none

/-- Modelled from the spec: TIMEOUT values are integer milliseconds,
converted to a `Duration`; malformed input is abandoned. -/
def parseDuration (s : String) : Option Duration :=
  (String.toInt? s).map (· * durMillisecond)

/-- Modelled from the spec: HEADERS values `k1=v1,k2=v2` are split on
commas, each pair cut at the first `=`; pairs without `=` are skipped. -/
def parseHeaders (s : String) : Headers :=
  (s.splitOn ",").filterMap fun kv =>
    match kv.splitOn "=" with
    | [] => none
    | [_] => none
    | k :: rest => some (k, String.intercalate "=" rest)

/-- Modelled from the spec: the certificate-loader collaborator for root
CAs — produce a trust object from PEM bytes, or fail. -/
def parsePEMCertPool (bytes : String) : Option CertPool :=
  if bytes = "" then none else some bytes

/-- Modelled from the spec: the certificate-loader collaborator for a
client certificate/key pair. -/
def parseClientCert (certBytes keyBytes : String) : Option ClientCert :=
  if certBytes = "" ∨ keyBytes = "" then none else some (certBytes, keyBytes)

/-- `stringToProtocol` from `otlpconfig`: case-insensitive match over the
three protocol names, defaulting to `http/protobuf`. -/
def stringToProtocol (u : String) : Protocol :=
  if toLowerGo u = ExporterProtocolGrpc then ExporterProtocolGrpc
  else if toLowerGo u = ExporterProtocolHttpProtobuf then ExporterProtocolHttpProtobuf
  else if toLowerGo u = ExporterProtocolHttpJson then ExporterProtocolHttpJson
  else ExporterProtocolHttpProtobuf

/-- `withEndpointScheme`: derive transport security from the URL scheme
(`http`/`unix` → insecure, anything else → secure), case-insensitively. -/
def withEndpointScheme (u : URL) : GenericOption :=
  if toLowerGo u.scheme = "http" ∨ toLowerGo u.scheme = "unix" then WithInsecure
  else WithSecure

/-- `withEndpointForGRPC`: for gRPC, the endpoint URL resolves to the
single dial target `path.Join(host, path)`. -/
def withEndpointForGRPC (u : URL) : Config → Config := fun cfg =>
  { cfg with logs := { cfg.logs with endpoint := pathJoin u.host u.path } }

/-- The HTTP half of the generic `ENDPOINT` option: the endpoint is used
as a base URL and the signal path is joined onto its path. -/
def httpEndpointGeneric (u : URL) : Config → Config := fun cfg =>
  { cfg with logs := { cfg.logs with
      endpoint := u.host
      urlPath := pathJoin u.path DefaultLogsPath } }

/-- The HTTP half of the per-signal `LOGS_ENDPOINT` option: the URL path
is used as-is; an empty path becomes `/`. -/
def httpEndpointSignal (u : URL) : Config → Config := fun cfg =>
  { cfg with logs := { cfg.logs with
      endpoint := u.host
      urlPath := if u.path = "" then "/" else u.path } }

/-- `withInsecure` (lower-case, env-driven): booleans map onto the
`WithInsecure`/`WithSecure` options. -/
def withInsecure (b : Bool) : GenericOption :=
  if b then WithInsecure else WithSecure

/-- `withProtocol`: set the protocol parsed from an env string. -/
def withProtocol (b : String) : GenericOption :=
  newGenericOption fun cfg =>
    { cfg with logs := { cfg.logs with protocol := stringToProtocol b } }

/-- Contribution of the generic `ENDPOINT` variable to the option list. -/
def genericEndpointEnvOpts (e : EnvOptionsReader) : List GenericOption :=
  match (getEnvValue e "ENDPOINT").bind parseURL with
  | none => []
  | some u =>
    [withEndpointScheme u, newSplitOption (httpEndpointGeneric u) (withEndpointForGRPC u)]

/-- Contribution of the per-signal `LOGS_ENDPOINT` variable. -/
def signalEndpointEnvOpts (e : EnvOptionsReader) : List GenericOption :=
  match (getEnvValue e "LOGS_ENDPOINT").bind parseURL with
  | none => []
  | some u =>
    [withEndpointScheme u, newSplitOption (httpEndpointSignal u) (withEndpointForGRPC u)]

/-- Contribution of a `PROTOCOL`-family variable. -/
def protocolEnvOpts (e : EnvOptionsReader) (key : String) : List GenericOption :=
  match getEnvValue e key with
  | none => []
  | some s => [withProtocol s]

/-- The root-CA pool loaded from a certificate-path variable. -/
def certPoolOf (e : EnvOptionsReader) (key : String) : Option CertPool :=
  (getEnvValue e key).bind fun p => (e.readFile p).bind parsePEMCertPool

/-- The client certificate loaded from a cert-path/key-path variable pair. -/
def clientCertOf (e : EnvOptionsReader) (certKey keyKey : String) : Option ClientCert :=
  match getEnvValue e certKey, getEnvValue e keyKey with
  | some cp, some kp =>
    match e.readFile cp, e.readFile kp with
    | some cb, some kb => parseClientCert cb kb
    | _, _ => none
  | _, _ => none

/-- The `tls.Config` accumulated across the four certificate variables
(per-signal values overwrite generic ones, as the entries run in order
over one shared `tls.Config`). -/
def envTLSConf (e : EnvOptionsReader) : TLSConfig :=
  let c0 : TLSConfig := {}
  let c1 := match certPoolOf e "CERTIFICATE" with
    | some p => { c0 with rootCAs := some p } | none => c0
  let c2 := match certPoolOf e "LOGS_CERTIFICATE" with
    | some p => { c1 with rootCAs := some p } | none => c1
  let c3 := match clientCertOf e "CLIENT_CERTIFICATE" "CLIENT_KEY" with
    | some cc => { c2 with certificates := [cc] } | none => c2
  match clientCertOf e "LOGS_CLIENT_CERTIFICATE" "LOGS_CLIENT_KEY" with
  | some cc => { c3 with certificates := [cc] } | none => c3

/-- `withTLSConfig`: the TLS option is emitted only when root CAs or
client certificates were populated from the environment. -/
def tlsEnvOpts (e : EnvOptionsReader) : List GenericOption :=
  let c := envTLSConf e
  if c.rootCAs ≠ none ∨ c.certificates ≠ [] then [WithTLSClientConfig c] else []

/-- Contribution of an `INSECURE`-family variable. -/
def insecureEnvOpts (e : EnvOptionsReader) (key : String) : List GenericOption :=
  match (getEnvValue e key).bind parseBool with
  | none => []
  | some b => [withInsecure b]

/-- Contribution of a `HEADERS`-family variable. -/
def headersEnvOpts (e : EnvOptionsReader) (key : String) : List GenericOption :=
  match getEnvValue e key with
  | none => []
  | some s => [WithHeaders (parseHeaders s)]

/-- `WithEnvCompression`: `gzip` maps to gzip, anything else to none. -/
def compressionEnvOpts (e : EnvOptionsReader) (key : String) : List GenericOption :=
  match getEnvValue e key with
  | none => []
  | some v => [WithCompression (if v = "gzip" then GzipCompression else NoCompression)]

/-- Contribution of a `TIMEOUT`-family variable. -/
def timeoutEnvOpts (e : EnvOptionsReader) (key : String) : List GenericOption :=
  match (getEnvValue e key).bind parseDuration with
  | none => []
  | some d => [WithTimeout d]

/-- `getOptionsFromEnv`: the ordered option sequence derived from the
environment (generic before per-signal for each family; the TLS option
between the protocol and insecure families, as in the source). -/
def getOptionsFromEnv (e : EnvOptionsReader) : List GenericOption :=
  genericEndpointEnvOpts e ++ signalEndpointEnvOpts e
    ++ protocolEnvOpts e "PROTOCOL" ++ protocolEnvOpts e "LOGS_PROTOCOL"
    ++ tlsEnvOpts e
    ++ insecureEnvOpts e "INSECURE" ++ insecureEnvOpts e "LOGS_INSECURE"
    ++ headersEnvOpts e "HEADERS" ++ headersEnvOpts e "LOGS_HEADERS"
    ++ compressionEnvOpts e "COMPRESSION" ++ compressionEnvOpts e "LOGS_COMPRESSION"
    ++ timeoutEnvOpts e "TIMEOUT" ++ timeoutEnvOpts e "LOGS_TIMEOUT"

/-- `ApplyHTTPEnvConfigs`. -/
def ApplyHTTPEnvConfigs (e : EnvOptionsReader) (cfg : Config) : Config :=
  (getOptionsFromEnv e).foldl (fun c o => o.applyHTTPOption c) cfg

/-- `ApplyGRPCEnvConfigs`. -/
def ApplyGRPCEnvConfigs (e : EnvOptionsReader) (cfg : Config) : Config :=
  (getOptionsFromEnv e).foldl (fun c o => o.applyGRPCOption c) cfg

/-! ## Configuration builders -/

/-- Modelled from the spec: `DefaultCollectorHost` and the default ports
(HTTP default target `localhost:4318`, gRPC default target
`localhost:4317`); the constants' file is not among the provided sources. -/
def DefaultCollectorHost : String := "localhost"

/-- Modelled from the spec: default HTTP collector port. -/
def DefaultCollectorHTTPPort : Nat := 4318

/-- Modelled from the spec: default gRPC collector port. -/
def DefaultCollectorGRPCPort : Nat := 4317

/-- Modelled from the spec: `otel.Version()` — an opaque version string
from the OpenTelemetry collaborator. -/
def otelVersion : String := "1.x"

/-- `GetUserAgentHeader`. -/
def GetUserAgentHeader : String := "OTel OTLP Exporter Go/" ++ otelVersion

/-- The seed `Config` of `NewHTTPConfig` (defaults before the env layer). -/
def httpDefaultConfig : Config :=
  { logs := { endpoint := DefaultCollectorHost ++ ":" ++ toString DefaultCollectorHTTPPort
              urlPath := DefaultLogsPath
              compression := NoCompression
              timeout := DefaultTimeout }
    retryConfig := defaultRetryConfig }

/-- `NewHTTPConfig`: defaults, then environment options, then caller
options, then URL-path normalization.  The environment reader is passed
explicitly (the source reads the swappable global
`DefaultEnvOptionsReader`; claims quantify over the snapshot). -/
def NewHTTPConfig (e : EnvOptionsReader) (opts : List HTTPOption) : Config :=
  let cfg := ApplyHTTPEnvConfigs e httpDefaultConfig
  let cfg := opts.foldl (fun c o => o.applyHTTPOption c) cfg
  { cfg with logs := { cfg.logs with urlPath := CleanPath cfg.logs.urlPath DefaultLogsPath } }

/-- The seed `Config` of `NewGRPCConfig` (includes the user-agent dial
option). -/
def grpcDefaultConfig : Config :=
  { logs := { endpoint := DefaultCollectorHost ++ ":" ++ toString DefaultCollectorGRPCPort
              urlPath := DefaultLogsPath
              compression := NoCompression
              timeout := DefaultTimeout }
    retryConfig := defaultRetryConfig
    dialOptions := [.userAgent GetUserAgentHeader] }

/-- The part of `NewGRPCConfig` before finalization: defaults, then
environment options, then caller options. -/
def grpcConfigPreFinalize (e : EnvOptionsReader) (opts : List GRPCOption) : Config :=
  let cfg := ApplyGRPCEnvConfigs e grpcDefaultConfig
  opts.foldl (fun c o => o.applyGRPCOption c) cfg

/-- Finalization step: append the default-service-config dial option when
a service config string is set. -/
def serviceConfigStep (cfg : Config) : Config :=
  if cfg.serviceConfig ≠ "" then
    { cfg with dialOptions := cfg.dialOptions ++ [.defaultServiceConfig cfg.serviceConfig] }
  else cfg

/-- Finalization step: resolve channel credentials — explicit transport
credentials first, else the insecure credentials when the insecure flag is
set, else the default TLS credentials (system root CAs), which are also
stored back into the config. -/
def credentialsStep (cfg : Config) : Config :=
  match cfg.logs.grpcCredentials with
  | some cr => { cfg with dialOptions := cfg.dialOptions ++ [.transportCredentials cr] }
  | none =>
    if cfg.logs.insecure then
      { cfg with dialOptions := cfg.dialOptions ++ [.transportCredentials .insecureCreds] }
    else
      { cfg with
          logs := { cfg.logs with grpcCredentials := some (.tlsCreds none) }
          dialOptions := cfg.dialOptions ++ [.transportCredentials (.tlsCreds none)] }

/-- Finalization step: append the gzip per-call compressor dial option
when gzip compression is configured. -/
def compressionStep (cfg : Config) : Config :=
  if cfg.logs.compression = GzipCompression then
    { cfg with dialOptions := cfg.dialOptions ++ [.useCompressor "gzip"] }
  else cfg

/-- Finalization step: the source's `append(cfg.DialOptions,
cfg.DialOptions...)` on a non-empty list — every collected dial option is
appended to itself. -/
def dialOptionsDupStep (cfg : Config) : Config :=
  if cfg.dialOptions ≠ [] then
    { cfg with dialOptions := cfg.dialOptions ++ cfg.dialOptions }
  else cfg

/-- Finalization step: connection parameters for a non-zero reconnection
period. -/
def reconnectionStep (cfg : Config) : Config :=
  if cfg.reconnectionPeriod ≠ 0 then
    { cfg with dialOptions := cfg.dialOptions ++ [.connectParams cfg.reconnectionPeriod] }
  else cfg

/-- The finalization tail of `NewGRPCConfig` (source lines 143–169). -/
def grpcFinalize (cfg : Config) : Config :=
  reconnectionStep (dialOptionsDupStep (compressionStep (credentialsStep (serviceConfigStep cfg))))

/-- `NewGRPCConfig`. -/
def NewGRPCConfig (e : EnvOptionsReader) (opts : List GRPCOption) : Config :=
  grpcFinalize (grpcConfigPreFinalize e opts)

/-- An environment snapshot with no variables set and no readable files. -/
def emptyEnvReader : EnvOptionsReader :=
  { getEnv := fun _ => "", readFile := fun _ => none, ns := "OTEL_EXPORTER_OTLP" }

/-- An environment snapshot from an association list of full variable
names, with a given file system. -/
def mkEnv (rf : String → Option String) (vars : List (String × String)) : EnvOptionsReader :=
  { getEnv := fun k => ((vars.find? (fun p => p.1 = k)).map Prod.snd).getD ""
    readFile := rf
    ns := "OTEL_EXPORTER_OTLP" }

/-! ## Exporter lifecycle (modelled from the spec)

The `Exporter` and its `Shutdown` live outside the provided sources (only
their conformance tests are present, in
`internal/otlplogstest/client.go`); they are modelled from the spec
(§4.5): `Shutdown` delegates to the client's stop with the same context,
and an already-expired context makes the call return the context's own
error immediately. -/

/-- Go errors relevant to the shutdown contract. -/
inductive GoError
  | deadlineExceeded
  | canceled
  | other (msg : String)
deriving DecidableEq

/-- A Go `context.Context`, abstracted to its `Err()` observation:
`none` while live, `some deadlineExceeded` after expiry, `some canceled`
after cancellation. -/
structure GoContext where
  err : Option GoError
deriving DecidableEq

/-- The transport-client collaborator: upload and stop. -/
structure Client where
  uploadLogs : GoContext → Option GoError
  stop : GoContext → Option GoError

/-- The exporter wrapping a transport client. -/
structure Exporter where
  client : Client

/-- Modelled from the spec: `Exporter.Shutdown` — if the supplied context
is already expired or canceled, return the context's own error (verbatim,
not wrapped); otherwise delegate to the client's stop with the same
context. -/
def Exporter.Shutdown (ex : Exporter) (ctx : GoContext) : Option GoError :=
  match ctx.err with
  | some e => some e
  | none => ex.client.stop ctx

/-! ## Helper lemmas -/

/-- Whether a path string has a `".."` segment. -/
def hasDotDotSegment (s : String) : Bool :=
  (splitOnSlash s.data).any (· = dotdotSeg)

/-! ## Claim theorems -/

/-! ## C1: the precedence law

Scaffolding: the spec-side precedence combinator, presence of a raw
environment value, caller-option lists, and per-setting environment
snapshots carrying one generic and one per-signal variable. -/

/-- The spec's precedence rule, stated in its own words: the explicit
option if present, else the per-signal environment value, else the generic
environment value, else the hard-coded default. -/
def prec3 {α : Type} (opt perSignal generic : Option α) (d : α) : α :=
  match opt with
  | some v => v
  | none =>
    match perSignal with
    | some v => v
    | none =>
      match generic with
      | some v => v
      | none => d

/-- The presence test applied to a raw environment value: trim, and treat
the empty result as absent (mirrors `GetEnvValue`). -/
def envVal (s : String) : Option String :=
  if trimSpace s = "" then none else some (trimSpace s)

/-- Caller-option list from an optional explicit setting. -/
def optsOf {α : Type} (f : α → GenericOption) (o : Option α) : List GenericOption :=
  match o with
  | some v => [f v]
  | none => []

/-- Generic options as HTTP options (`asHTTPOptions` from the tests). -/
def asHTTPOptions (opts : List GenericOption) : List HTTPOption :=
  opts.map fun o => NewHTTPOption o.applyHTTPOption

/-- Generic options as gRPC options (`asGRPCOptions` from the tests). -/
def asGRPCOptions (opts : List GenericOption) : List GRPCOption :=
  opts.map fun o => NewGRPCOption o.applyGRPCOption

/-- The duration carried by an environment value, when present and
well-formed. -/
def envDurationVal (s : String) : Option Duration := (envVal s).bind parseDuration

/-- The boolean carried by an environment value. -/
def envBoolVal (s : String) : Option Bool := (envVal s).bind parseBool

/-- The compression carried by an environment value (`gzip` or not). -/
def envCompressionVal (s : String) : Option Compression :=
  (envVal s).map fun v => if v = "gzip" then GzipCompression else NoCompression

/-- The header mapping carried by an environment value. -/
def envHeadersVal (s : String) : Option Headers := (envVal s).map parseHeaders

/-- The URL carried by an environment value, when present and parsable. -/
def envURLVal (s : String) : Option URL := (envVal s).bind parseURL

/-- The root-CA pool loaded through a certificate-path value. -/
def certOf (rf : String → Option String) (s : String) : Option CertPool :=
  (envVal s).bind fun p => (rf p).bind parsePEMCertPool

/-- Environment snapshot carrying only the two endpoint variables. -/
def endpointEnv (gs ls : String) : EnvOptionsReader :=
  { getEnv := fun k =>
      if k = "OTEL_EXPORTER_OTLP_ENDPOINT" then gs
      else if k = "OTEL_EXPORTER_OTLP_LOGS_ENDPOINT" then ls
      else ""
    readFile := fun _ => none
    ns := "OTEL_EXPORTER_OTLP" }

/-- Environment snapshot carrying only the two root-CA certificate path
variables, over a given file system. -/
def tlsEnv (rf : String → Option String) (gs ls : String) : EnvOptionsReader :=
  { getEnv := fun k =>
      if k = "OTEL_EXPORTER_OTLP_CERTIFICATE" then gs
      else if k = "OTEL_EXPORTER_OTLP_LOGS_CERTIFICATE" then ls
      else ""
    readFile := rf
    ns := "OTEL_EXPORTER_OTLP" }

/-- Environment snapshot carrying only the two insecure variables. -/
def insecureEnv (gs ls : String) : EnvOptionsReader :=
  { getEnv := fun k =>
      if k = "OTEL_EXPORTER_OTLP_INSECURE" then gs
      else if k = "OTEL_EXPORTER_OTLP_LOGS_INSECURE" then ls
      else ""
    readFile := fun _ => none
    ns := "OTEL_EXPORTER_OTLP" }

/-- Environment snapshot carrying only the two headers variables. -/
def headersEnv (gs ls : String) : EnvOptionsReader :=
  { getEnv := fun k =>
      if k = "OTEL_EXPORTER_OTLP_HEADERS" then gs
      else if k = "OTEL_EXPORTER_OTLP_LOGS_HEADERS" then ls
      else ""
    readFile := fun _ => none
    ns := "OTEL_EXPORTER_OTLP" }

/-- Environment snapshot carrying only the two compression variables. -/
def compressionEnv (gs ls : String) : EnvOptionsReader :=
  { getEnv := fun k =>
      if k = "OTEL_EXPORTER_OTLP_COMPRESSION" then gs
      else if k = "OTEL_EXPORTER_OTLP_LOGS_COMPRESSION" then ls
      else ""
    readFile := fun _ => none
    ns := "OTEL_EXPORTER_OTLP" }

/-- Environment snapshot carrying only the two timeout variables. -/
def timeoutEnv (gs ls : String) : EnvOptionsReader :=
  { getEnv := fun k =>
      if k = "OTEL_EXPORTER_OTLP_TIMEOUT" then gs
      else if k = "OTEL_EXPORTER_OTLP_LOGS_TIMEOUT" then ls
      else ""
    readFile := fun _ => none
    ns := "OTEL_EXPORTER_OTLP" }

/-! ## C3: `cleanPath` idempotence — theory of the path-cleaning model -/

/-- A well-formed output segment: nonempty, not `"."`, and free of `'/'`. -/
def GoodSeg (s : List Char) : Prop := s ≠ [] ∧ s ≠ dotSeg ∧ '/' ∉ s

/-- The invariant of `path.Clean`'s output stack: a (possibly empty)
prefix of `".."` segments — none when rooted — followed by well-formed
non-`".."` segments. -/
def NormalStack (rooted : Bool) (st : List (List Char)) : Prop :=
  ∃ k rest, st = List.replicate k dotdotSeg ++ rest
    ∧ (∀ s ∈ rest, GoodSeg s ∧ s ≠ dotdotSeg)
    ∧ (rooted = true → k = 0)

/-! ## Theorems -/

/-- `CleanPath` with an absolute default always yields an absolute path. -/
theorem CleanPath_isAbs (x d : String) (hd : goIsAbs d = true) :
    goIsAbs (CleanPath x d) = true := by
  simp only [CleanPath]
  split
  · exact hd
  · split
    · simp [goIsAbs, String.data_append]
    · next h => simpa using Decidable.of_not_not h

/-- `CleanPath` with a non-empty default is never empty. -/
theorem CleanPath_ne_empty (x d : String) (hd : d ≠ "") :
    CleanPath x d ≠ "" := by
  simp only [CleanPath]
  split
  · exact hd
  · split
    · intro h
      have : ("/" ++ goClean (trimSpace x)).data = ("" : String).data := by rw [h]
      simp [String.data_append] at this
    · next h =>
      have habs : goIsAbs (goClean (trimSpace x)) = true := by
        simpa using Decidable.of_not_not h
      intro he
      rw [he] at habs
      simp [goIsAbs] at habs

/-- `serviceConfigStep` does not change the signal config. -/
theorem serviceConfigStep_logs (cfg : Config) :
    (serviceConfigStep cfg).logs = cfg.logs := by
  unfold serviceConfigStep; split <;> rfl

/-- `compressionStep` does not change the signal config. -/
theorem compressionStep_logs (cfg : Config) :
    (compressionStep cfg).logs = cfg.logs := by
  unfold compressionStep; split <;> rfl

/-- `dialOptionsDupStep` does not change the signal config. -/
theorem dialOptionsDupStep_logs (cfg : Config) :
    (dialOptionsDupStep cfg).logs = cfg.logs := by
  unfold dialOptionsDupStep; split <;> rfl

/-- `reconnectionStep` does not change the signal config. -/
theorem reconnectionStep_logs (cfg : Config) :
    (reconnectionStep cfg).logs = cfg.logs := by
  unfold reconnectionStep; split <;> rfl

/-- The credentials resolved by `credentialsStep` as a function of the
incoming config. -/
theorem credentialsStep_grpcCredentials (cfg : Config) :
    (credentialsStep cfg).logs.grpcCredentials
      = match cfg.logs.grpcCredentials with
        | some cr => some cr
        | none => if cfg.logs.insecure then none else some (.tlsCreds none) := by
  unfold credentialsStep
  cases heq : cfg.logs.grpcCredentials with
  | some cr => simp [heq]
  | none => by_cases hi : cfg.logs.insecure = true <;> simp [heq, hi]

/-- The gRPC credentials after finalization, as a function of the config
entering finalization. -/
theorem grpcFinalize_grpcCredentials (cfg : Config) :
    (grpcFinalize cfg).logs.grpcCredentials
      = match cfg.logs.grpcCredentials with
        | some cr => some cr
        | none => if cfg.logs.insecure then none else some (.tlsCreds none) := by
  unfold grpcFinalize
  rw [reconnectionStep_logs, dialOptionsDupStep_logs, compressionStep_logs,
    credentialsStep_grpcCredentials, serviceConfigStep_logs]

/-- C2: with an empty environment and no options, `NewGRPCConfig` collects
the user-agent dial option and the default transport-credentials dial
option, and the finalization step then appends the collected list to
itself, so each dial option appears twice (four entries instead of two).
This evaluates the code at the failing input for the claim that each
accumulated dial option is appended exactly once. -/
theorem newGRPCConfig_duplicates_dialOptions :
    (NewGRPCConfig emptyEnvReader []).dialOptions
      = [.userAgent GetUserAgentHeader, .transportCredentials (.tlsCreds none),
         .userAgent GetUserAgentHeader, .transportCredentials (.tlsCreds none)]
    ∧ [DialOption.userAgent GetUserAgentHeader,
       .transportCredentials (.tlsCreds none),
       .userAgent GetUserAgentHeader,
       .transportCredentials (.tlsCreds none)].count (.userAgent GetUserAgentHeader) = 2 := by
  constructor <;> decide

/-- C4 (counterexample): the finalized URL path is not always a cleaned
absolute path free of `".."` segments: `NewGRPCConfig` never normalizes
`Logs.URLPath`, so a caller-supplied relative path survives as-is, and
`NewHTTPConfig` turns a caller-supplied `".."` into `"/.."`, which keeps a
`".."` segment. -/
theorem urlPath_invariant_counterexample :
    (NewGRPCConfig emptyEnvReader [NewGRPCOption (WithURLPath "foo").applyGRPCOption]).logs.urlPath = "foo"
    ∧ goIsAbs "foo" = false
    ∧ (NewHTTPConfig emptyEnvReader [NewHTTPOption (WithURLPath "..").applyHTTPOption]).logs.urlPath = "/.."
    ∧ hasDotDotSegment "/.." = true := by
  refine ⟨by decide, by decide, by decide, by decide⟩

/-- C4 (amended): for every environment snapshot and option list, the
`Config` returned by `NewHTTPConfig` has a non-empty, absolute
`Logs.URLPath` (it may still contain `".."` segments when one was
explicitly supplied, and `NewGRPCConfig` does not normalize the path). -/
theorem newHTTPConfig_urlPath_absolute (e : EnvOptionsReader) (opts : List HTTPOption) :
    (NewHTTPConfig e opts).logs.urlPath ≠ ""
    ∧ goIsAbs (NewHTTPConfig e opts).logs.urlPath = true := by
  constructor
  · exact CleanPath_ne_empty _ _ (by decide)
  · exact CleanPath_isAbs _ _ (by decide)

/-- C5: with the generic endpoint variable `https://host/prefix` the HTTP
URL path is `/prefix/v1/logs` (base-URL join with the default signal
path); with the per-signal endpoint variable `http://host` (empty URL
path) it is `/` exactly, not the default signal path. -/
theorem http_path_derivation_from_endpoint_env :
    (NewHTTPConfig (mkEnv (fun _ => none)
        [("OTEL_EXPORTER_OTLP_ENDPOINT", "https://host/prefix")]) []).logs.urlPath
      = "/prefix/v1/logs"
    ∧ (NewHTTPConfig (mkEnv (fun _ => none)
        [("OTEL_EXPORTER_OTLP_LOGS_ENDPOINT", "http://host")]) []).logs.urlPath
      = "/"
    ∧ "/" ≠ DefaultLogsPath := by
  refine ⟨by decide, by decide, by decide⟩

/-- C7: for every endpoint URL read from the environment, the schemes
`http` and `unix` resolve the insecure flag to `true` and every other
scheme resolves it to `false`, case-insensitively, on both drivers. -/
theorem withEndpointScheme_security_mapping (u : URL) (cfg : Config) :
    ((withEndpointScheme u).applyHTTPOption cfg).logs.insecure
      = (toLowerGo u.scheme == "http" || toLowerGo u.scheme == "unix")
    ∧ ((withEndpointScheme u).applyGRPCOption cfg).logs.insecure
      = (toLowerGo u.scheme == "http" || toLowerGo u.scheme == "unix") := by
  unfold withEndpointScheme
  split
  · next h =>
    rcases h with h | h <;>
      constructor <;> simp [WithInsecure, newGenericOption, h]
  · next h =>
    push_neg at h
    constructor <;> simp [WithSecure, newGenericOption, h.1, h.2]

/-- C8: environment protocol parsing is case-insensitive (it depends only
on the lowercased input), maps the three recognized names to their
protocols, and resolves every unrecognized value to `http/protobuf`. -/
theorem stringToProtocol_parsing :
    (∀ s t, toLowerGo s = toLowerGo t → stringToProtocol s = stringToProtocol t)
    ∧ stringToProtocol "gRPC" = ExporterProtocolGrpc
    ∧ stringToProtocol "HTTP/Protobuf" = ExporterProtocolHttpProtobuf
    ∧ stringToProtocol "Http/Json" = ExporterProtocolHttpJson
    ∧ (∀ s, toLowerGo s ≠ "grpc" → toLowerGo s ≠ "http/protobuf" →
        toLowerGo s ≠ "http/json" → stringToProtocol s = ExporterProtocolHttpProtobuf) := by
  refine ⟨?_, by decide, by decide, by decide, ?_⟩
  · intro s t h
    unfold stringToProtocol
    rw [h]
  · intro s h1 h2 h3
    unfold stringToProtocol
    simp only [ExporterProtocolGrpc, ExporterProtocolHttpProtobuf, ExporterProtocolHttpJson] at *
    simp [h1, h2, h3]

/-- Witness for C8 at concrete inputs. -/
theorem stringToProtocol_parsing_witness :
    (toLowerGo "GRPC" = toLowerGo "grpc" ∧ stringToProtocol "GRPC" = stringToProtocol "grpc")
    ∧ (toLowerGo "xyz" ≠ "grpc" ∧ toLowerGo "xyz" ≠ "http/protobuf"
        ∧ toLowerGo "xyz" ≠ "http/json"
        ∧ stringToProtocol "xyz" = ExporterProtocolHttpProtobuf) :=
  ⟨⟨by decide, stringToProtocol_parsing.1 "GRPC" "grpc" (by decide)⟩,
   ⟨by decide, by decide, by decide,
    stringToProtocol_parsing.2.2.2.2 "xyz" (by decide) (by decide) (by decide)⟩⟩

/-- C9: calling `Shutdown` with an already-expired context returns the
context's deadline-exceeded error and calling it with an already-canceled
context returns the context's canceled error — in each case the context's
own error, not wrapped or replaced by the client's stop result. -/
theorem exporter_shutdown_propagates_ctx_error (ex : Exporter) (ctx : GoContext) :
    (ctx.err = some .deadlineExceeded → ex.Shutdown ctx = some .deadlineExceeded)
    ∧ (ctx.err = some .canceled → ex.Shutdown ctx = some .canceled) := by
  constructor <;> intro h <;> simp [Exporter.Shutdown, h]

/-- Witness for C9: a client whose stop would report a different error
does not mask the context's own error. -/
theorem exporter_shutdown_propagates_ctx_error_witness :
    (({ err := some .deadlineExceeded } : GoContext).err = some .deadlineExceeded
      ∧ (Exporter.mk ⟨fun _ => none, fun _ => some (.other "stop failed")⟩).Shutdown
          { err := some .deadlineExceeded } = some .deadlineExceeded)
    ∧ (({ err := some .canceled } : GoContext).err = some .canceled
      ∧ (Exporter.mk ⟨fun _ => none, fun _ => some (.other "stop failed")⟩).Shutdown
          { err := some .canceled } = some .canceled) :=
  ⟨⟨rfl, (exporter_shutdown_propagates_ctx_error _ _).1 rfl⟩,
   ⟨rfl, (exporter_shutdown_propagates_ctx_error _ _).2 rfl⟩⟩

/-- C6: gRPC credential precedence in `NewGRPCConfig`'s finalization
(`NewGRPCConfig = grpcFinalize ∘ grpcConfigPreFinalize` definitionally):
explicit transport credentials win over the insecure flag (the appended
transport-credentials dial option carries the explicit credentials, not
the insecure ones, and the field keeps them); with no explicit credentials
and insecure set, the insecure credentials are dialed; with neither, the
default secure TLS credentials (system root CAs) are dialed. -/
theorem grpc_credential_precedence :
    (∀ (e : EnvOptionsReader) (opts : List GRPCOption),
      NewGRPCConfig e opts = grpcFinalize (grpcConfigPreFinalize e opts))
    ∧ ∀ cfg : Config,
      (∀ cr, cfg.logs.grpcCredentials = some cr →
        (credentialsStep cfg).dialOptions = cfg.dialOptions ++ [.transportCredentials cr]
        ∧ (grpcFinalize cfg).logs.grpcCredentials = some cr)
      ∧ (cfg.logs.grpcCredentials = none → cfg.logs.insecure = true →
        (credentialsStep cfg).dialOptions
          = cfg.dialOptions ++ [.transportCredentials .insecureCreds])
      ∧ (cfg.logs.grpcCredentials = none → cfg.logs.insecure = false →
        (credentialsStep cfg).dialOptions
          = cfg.dialOptions ++ [.transportCredentials (.tlsCreds none)]
        ∧ (grpcFinalize cfg).logs.grpcCredentials = some (.tlsCreds none)) := by
  refine ⟨fun e opts => rfl, fun cfg => ⟨?_, ?_, ?_⟩⟩
  · intro cr h
    refine ⟨?_, ?_⟩
    · unfold credentialsStep
      simp [h]
    · rw [grpcFinalize_grpcCredentials, h]
  · intro h hi
    unfold credentialsStep
    simp [h, hi]
  · intro h hi
    refine ⟨?_, ?_⟩
    · unfold credentialsStep
      simp [h, hi]
    · rw [grpcFinalize_grpcCredentials, h]
      simp [hi]

/-- Witness for C6: a config with both explicit credentials and the
insecure flag keeps the explicit credentials; one with only the insecure
flag dials insecure; the empty config dials the secure default. -/
theorem grpc_credential_precedence_witness :
    (({ logs := { insecure := true, grpcCredentials := some (.tlsCreds (some {})) } } :
        Config).logs.grpcCredentials = some (.tlsCreds (some {}))
      ∧ (credentialsStep { logs := { insecure := true, grpcCredentials := some (.tlsCreds (some {})) } }).dialOptions
          = [.transportCredentials (.tlsCreds (some {}))]
      ∧ (grpcFinalize { logs := { insecure := true, grpcCredentials := some (.tlsCreds (some {})) } }).logs.grpcCredentials
          = some (.tlsCreds (some {})))
    ∧ (credentialsStep { logs := { insecure := true } }).dialOptions
        = [.transportCredentials .insecureCreds]
    ∧ (credentialsStep ({} : Config)).dialOptions
        = [.transportCredentials (.tlsCreds none)]
      ∧ (grpcFinalize ({} : Config)).logs.grpcCredentials = some (.tlsCreds none) :=
  ⟨⟨rfl,
    ((grpc_credential_precedence.2 _).1 _ rfl).1,
    ((grpc_credential_precedence.2 _).1 _ rfl).2⟩,
   (grpc_credential_precedence.2 _).2.1 rfl rfl,
   ((grpc_credential_precedence.2 _).2.2 rfl rfl).1,
   ((grpc_credential_precedence.2 _).2.2 rfl rfl).2⟩

/-- C10: when, at the end of the option fold, no caller or environment
option has set transport credentials and the insecure flag is off,
`NewGRPCConfig` stores the default TLS credentials back into the returned
`Config`, so `Logs.GRPCCredentials` is non-nil in the result. -/
theorem grpc_default_credentials_stored (e : EnvOptionsReader) (opts : List GRPCOption)
    (hc : (grpcConfigPreFinalize e opts).logs.grpcCredentials = none)
    (hi : (grpcConfigPreFinalize e opts).logs.insecure = false) :
    (NewGRPCConfig e opts).logs.grpcCredentials = some (.tlsCreds none) := by
  show (grpcFinalize (grpcConfigPreFinalize e opts)).logs.grpcCredentials = _
  rw [grpcFinalize_grpcCredentials, hc]
  simp [hi]

/-- Witness for C10 at the empty environment with no options. -/
theorem grpc_default_credentials_stored_witness :
    ((grpcConfigPreFinalize emptyEnvReader []).logs.grpcCredentials = none
      ∧ (grpcConfigPreFinalize emptyEnvReader []).logs.insecure = false)
    ∧ (NewGRPCConfig emptyEnvReader []).logs.grpcCredentials = some (.tlsCreds none) :=
  ⟨⟨by decide, by decide⟩,
   grpc_default_credentials_stored emptyEnvReader [] (by decide) (by decide)⟩

/-- When every other variable family is absent, the environment options
are exactly the endpoint family's contributions. -/
theorem getOptionsFromEnv_only_endpoint (e : EnvOptionsReader)
    (h3 : getEnvValue e "PROTOCOL" = none) (h4 : getEnvValue e "LOGS_PROTOCOL" = none)
    (h5 : getEnvValue e "CERTIFICATE" = none) (h6 : getEnvValue e "LOGS_CERTIFICATE" = none)
    (h7 : getEnvValue e "CLIENT_CERTIFICATE" = none) (h8 : getEnvValue e "LOGS_CLIENT_CERTIFICATE" = none)
    (h9 : getEnvValue e "INSECURE" = none) (h10 : getEnvValue e "LOGS_INSECURE" = none)
    (h11 : getEnvValue e "HEADERS" = none) (h12 : getEnvValue e "LOGS_HEADERS" = none)
    (h13 : getEnvValue e "COMPRESSION" = none) (h14 : getEnvValue e "LOGS_COMPRESSION" = none)
    (h15 : getEnvValue e "TIMEOUT" = none) (h16 : getEnvValue e "LOGS_TIMEOUT" = none) :
    getOptionsFromEnv e = genericEndpointEnvOpts e ++ signalEndpointEnvOpts e := by
  simp [getOptionsFromEnv, protocolEnvOpts, tlsEnvOpts, envTLSConf, certPoolOf,
    clientCertOf, insecureEnvOpts, headersEnvOpts, compressionEnvOpts, timeoutEnvOpts,
    h3, h4, h5, h6, h7, h8, h9, h10, h11, h12, h13, h14, h15, h16]

/-- When every other variable family is absent, the environment options
are exactly the TLS option derived from the certificate variables. -/
theorem getOptionsFromEnv_only_certificates (e : EnvOptionsReader)
    (h1 : getEnvValue e "ENDPOINT" = none) (h2 : getEnvValue e "LOGS_ENDPOINT" = none)
    (h3 : getEnvValue e "PROTOCOL" = none) (h4 : getEnvValue e "LOGS_PROTOCOL" = none)
    (h9 : getEnvValue e "INSECURE" = none) (h10 : getEnvValue e "LOGS_INSECURE" = none)
    (h11 : getEnvValue e "HEADERS" = none) (h12 : getEnvValue e "LOGS_HEADERS" = none)
    (h13 : getEnvValue e "COMPRESSION" = none) (h14 : getEnvValue e "LOGS_COMPRESSION" = none)
    (h15 : getEnvValue e "TIMEOUT" = none) (h16 : getEnvValue e "LOGS_TIMEOUT" = none) :
    getOptionsFromEnv e = tlsEnvOpts e := by
  simp [getOptionsFromEnv, genericEndpointEnvOpts, signalEndpointEnvOpts, protocolEnvOpts,
    insecureEnvOpts, headersEnvOpts, compressionEnvOpts, timeoutEnvOpts,
    h1, h2, h3, h4, h9, h10, h11, h12, h13, h14, h15, h16]

/-- When every other variable family is absent, the environment options
are exactly the insecure family's contributions. -/
theorem getOptionsFromEnv_only_insecure (e : EnvOptionsReader)
    (h1 : getEnvValue e "ENDPOINT" = none) (h2 : getEnvValue e "LOGS_ENDPOINT" = none)
    (h3 : getEnvValue e "PROTOCOL" = none) (h4 : getEnvValue e "LOGS_PROTOCOL" = none)
    (h5 : getEnvValue e "CERTIFICATE" = none) (h6 : getEnvValue e "LOGS_CERTIFICATE" = none)
    (h7 : getEnvValue e "CLIENT_CERTIFICATE" = none) (h8 : getEnvValue e "LOGS_CLIENT_CERTIFICATE" = none)
    (h11 : getEnvValue e "HEADERS" = none) (h12 : getEnvValue e "LOGS_HEADERS" = none)
    (h13 : getEnvValue e "COMPRESSION" = none) (h14 : getEnvValue e "LOGS_COMPRESSION" = none)
    (h15 : getEnvValue e "TIMEOUT" = none) (h16 : getEnvValue e "LOGS_TIMEOUT" = none) :
    getOptionsFromEnv e = insecureEnvOpts e "INSECURE" ++ insecureEnvOpts e "LOGS_INSECURE" := by
  simp [getOptionsFromEnv, genericEndpointEnvOpts, signalEndpointEnvOpts, protocolEnvOpts,
    tlsEnvOpts, envTLSConf, certPoolOf, clientCertOf, headersEnvOpts, compressionEnvOpts,
    timeoutEnvOpts, h1, h2, h3, h4, h5, h6, h7, h8, h11, h12, h13, h14, h15, h16]

/-- When every other variable family is absent, the environment options
are exactly the headers family's contributions. -/
theorem getOptionsFromEnv_only_headers (e : EnvOptionsReader)
    (h1 : getEnvValue e "ENDPOINT" = none) (h2 : getEnvValue e "LOGS_ENDPOINT" = none)
    (h3 : getEnvValue e "PROTOCOL" = none) (h4 : getEnvValue e "LOGS_PROTOCOL" = none)
    (h5 : getEnvValue e "CERTIFICATE" = none) (h6 : getEnvValue e "LOGS_CERTIFICATE" = none)
    (h7 : getEnvValue e "CLIENT_CERTIFICATE" = none) (h8 : getEnvValue e "LOGS_CLIENT_CERTIFICATE" = none)
    (h9 : getEnvValue e "INSECURE" = none) (h10 : getEnvValue e "LOGS_INSECURE" = none)
    (h13 : getEnvValue e "COMPRESSION" = none) (h14 : getEnvValue e "LOGS_COMPRESSION" = none)
    (h15 : getEnvValue e "TIMEOUT" = none) (h16 : getEnvValue e "LOGS_TIMEOUT" = none) :
    getOptionsFromEnv e = headersEnvOpts e "HEADERS" ++ headersEnvOpts e "LOGS_HEADERS" := by
  simp [getOptionsFromEnv, genericEndpointEnvOpts, signalEndpointEnvOpts, protocolEnvOpts,
    tlsEnvOpts, envTLSConf, certPoolOf, clientCertOf, insecureEnvOpts, compressionEnvOpts,
    timeoutEnvOpts, h1, h2, h3, h4, h5, h6, h7, h8, h9, h10, h13, h14, h15, h16]

/-- When every other variable family is absent, the environment options
are exactly the compression family's contributions. -/
theorem getOptionsFromEnv_only_compression (e : EnvOptionsReader)
    (h1 : getEnvValue e "ENDPOINT" = none) (h2 : getEnvValue e "LOGS_ENDPOINT" = none)
    (h3 : getEnvValue e "PROTOCOL" = none) (h4 : getEnvValue e "LOGS_PROTOCOL" = none)
    (h5 : getEnvValue e "CERTIFICATE" = none) (h6 : getEnvValue e "LOGS_CERTIFICATE" = none)
    (h7 : getEnvValue e "CLIENT_CERTIFICATE" = none) (h8 : getEnvValue e "LOGS_CLIENT_CERTIFICATE" = none)
    (h9 : getEnvValue e "INSECURE" = none) (h10 : getEnvValue e "LOGS_INSECURE" = none)
    (h11 : getEnvValue e "HEADERS" = none) (h12 : getEnvValue e "LOGS_HEADERS" = none)
    (h15 : getEnvValue e "TIMEOUT" = none) (h16 : getEnvValue e "LOGS_TIMEOUT" = none) :
    getOptionsFromEnv e = compressionEnvOpts e "COMPRESSION" ++ compressionEnvOpts e "LOGS_COMPRESSION" := by
  simp [getOptionsFromEnv, genericEndpointEnvOpts, signalEndpointEnvOpts, protocolEnvOpts,
    tlsEnvOpts, envTLSConf, certPoolOf, clientCertOf, insecureEnvOpts, headersEnvOpts,
    timeoutEnvOpts, h1, h2, h3, h4, h5, h6, h7, h8, h9, h10, h11, h12, h15, h16]

/-- When every other variable family is absent, the environment options
are exactly the timeout family's contributions. -/
theorem getOptionsFromEnv_only_timeout (e : EnvOptionsReader)
    (h1 : getEnvValue e "ENDPOINT" = none) (h2 : getEnvValue e "LOGS_ENDPOINT" = none)
    (h3 : getEnvValue e "PROTOCOL" = none) (h4 : getEnvValue e "LOGS_PROTOCOL" = none)
    (h5 : getEnvValue e "CERTIFICATE" = none) (h6 : getEnvValue e "LOGS_CERTIFICATE" = none)
    (h7 : getEnvValue e "CLIENT_CERTIFICATE" = none) (h8 : getEnvValue e "LOGS_CLIENT_CERTIFICATE" = none)
    (h9 : getEnvValue e "INSECURE" = none) (h10 : getEnvValue e "LOGS_INSECURE" = none)
    (h11 : getEnvValue e "HEADERS" = none) (h12 : getEnvValue e "LOGS_HEADERS" = none)
    (h13 : getEnvValue e "COMPRESSION" = none) (h14 : getEnvValue e "LOGS_COMPRESSION" = none) :
    getOptionsFromEnv e = timeoutEnvOpts e "TIMEOUT" ++ timeoutEnvOpts e "LOGS_TIMEOUT" := by
  simp [getOptionsFromEnv, genericEndpointEnvOpts, signalEndpointEnvOpts, protocolEnvOpts,
    tlsEnvOpts, envTLSConf, certPoolOf, clientCertOf, insecureEnvOpts, headersEnvOpts,
    compressionEnvOpts, h1, h2, h3, h4, h5, h6, h7, h8, h9, h10, h11, h12, h13, h14]

/-- `grpcFinalize` leaves every signal field except the gRPC credentials
unchanged. -/
theorem grpcFinalize_preserves_signal (cfg : Config) :
    (grpcFinalize cfg).logs.timeout = cfg.logs.timeout
    ∧ (grpcFinalize cfg).logs.compression = cfg.logs.compression
    ∧ (grpcFinalize cfg).logs.headers = cfg.logs.headers
    ∧ (grpcFinalize cfg).logs.insecure = cfg.logs.insecure
    ∧ (grpcFinalize cfg).logs.endpoint = cfg.logs.endpoint := by
  unfold grpcFinalize
  rw [reconnectionStep_logs, dialOptionsDupStep_logs, compressionStep_logs]
  have hs := serviceConfigStep_logs cfg
  unfold credentialsStep
  cases hc : (serviceConfigStep cfg).logs.grpcCredentials with
  | some cr => simp [hs]
  | none =>
    by_cases hi : cfg.logs.insecure = true <;> simp [hi, hs]

/-- The default HTTP endpoint evaluates to `localhost:4318`. -/
theorem defaultHTTPEndpoint_eval :
    DefaultCollectorHost ++ ":" ++ toString DefaultCollectorHTTPPort = "localhost:4318" := by
  decide

/-- The default gRPC endpoint evaluates to `localhost:4317`. -/
theorem defaultGRPCEndpoint_eval :
    DefaultCollectorHost ++ ":" ++ toString DefaultCollectorGRPCPort = "localhost:4317" := by
  decide

/-- Timeout precedence for `NewHTTPConfig`. -/
theorem prec_timeout_http (gs ls : String) (ot : Option Duration) :
    (NewHTTPConfig (timeoutEnv gs ls) (asHTTPOptions (optsOf WithTimeout ot))).logs.timeout
      = prec3 ot (envDurationVal ls) (envDurationVal gs) DefaultTimeout := by
  have hred : getOptionsFromEnv (timeoutEnv gs ls)
      = timeoutEnvOpts (timeoutEnv gs ls) "TIMEOUT"
        ++ timeoutEnvOpts (timeoutEnv gs ls) "LOGS_TIMEOUT" :=
    getOptionsFromEnv_only_timeout _ rfl rfl rfl rfl rfl rfl rfl rfl rfl rfl rfl rfl rfl rfl
  have hT : (getEnvValue (timeoutEnv gs ls) "TIMEOUT").bind parseDuration = envDurationVal gs := rfl
  have hL : (getEnvValue (timeoutEnv gs ls) "LOGS_TIMEOUT").bind parseDuration = envDurationVal ls := rfl
  rcases hvg : envDurationVal gs with _ | dg <;>
  rcases hvl : envDurationVal ls with _ | dl <;>
  rcases ot with _ | d <;>
  simp [NewHTTPConfig, ApplyHTTPEnvConfigs, hred, timeoutEnvOpts, hT, hL, hvg, hvl,
    optsOf, asHTTPOptions, NewHTTPOption, WithTimeout, newGenericOption, prec3,
    httpDefaultConfig]

/-- Timeout precedence for `NewGRPCConfig`. -/
theorem prec_timeout_grpc (gs ls : String) (ot : Option Duration) :
    (NewGRPCConfig (timeoutEnv gs ls) (asGRPCOptions (optsOf WithTimeout ot))).logs.timeout
      = prec3 ot (envDurationVal ls) (envDurationVal gs) DefaultTimeout := by
  have hpre : (grpcConfigPreFinalize (timeoutEnv gs ls)
        (asGRPCOptions (optsOf WithTimeout ot))).logs.timeout
      = prec3 ot (envDurationVal ls) (envDurationVal gs) DefaultTimeout := by
    have hred : getOptionsFromEnv (timeoutEnv gs ls)
        = timeoutEnvOpts (timeoutEnv gs ls) "TIMEOUT"
          ++ timeoutEnvOpts (timeoutEnv gs ls) "LOGS_TIMEOUT" :=
      getOptionsFromEnv_only_timeout _ rfl rfl rfl rfl rfl rfl rfl rfl rfl rfl rfl rfl rfl rfl
    have hT : (getEnvValue (timeoutEnv gs ls) "TIMEOUT").bind parseDuration = envDurationVal gs := rfl
    have hL : (getEnvValue (timeoutEnv gs ls) "LOGS_TIMEOUT").bind parseDuration = envDurationVal ls := rfl
    rcases hvg : envDurationVal gs with _ | dg <;>
    rcases hvl : envDurationVal ls with _ | dl <;>
    rcases ot with _ | d <;>
    simp [grpcConfigPreFinalize, ApplyGRPCEnvConfigs, hred, timeoutEnvOpts, hT, hL, hvg, hvl,
      optsOf, asGRPCOptions, NewGRPCOption, WithTimeout, newGenericOption, prec3,
      grpcDefaultConfig]
  exact ((grpcFinalize_preserves_signal _).1).trans hpre

/-- Compression precedence for `NewHTTPConfig`. -/
theorem prec_compression_http (gs ls : String) (oc : Option Compression) :
    (NewHTTPConfig (compressionEnv gs ls) (asHTTPOptions (optsOf WithCompression oc))).logs.compression
      = prec3 oc (envCompressionVal ls) (envCompressionVal gs) NoCompression := by
  have hred : getOptionsFromEnv (compressionEnv gs ls)
      = compressionEnvOpts (compressionEnv gs ls) "COMPRESSION"
        ++ compressionEnvOpts (compressionEnv gs ls) "LOGS_COMPRESSION" :=
    getOptionsFromEnv_only_compression _ rfl rfl rfl rfl rfl rfl rfl rfl rfl rfl rfl rfl rfl rfl
  have hT : getEnvValue (compressionEnv gs ls) "COMPRESSION" = envVal gs := rfl
  have hL : getEnvValue (compressionEnv gs ls) "LOGS_COMPRESSION" = envVal ls := rfl
  rcases hvg : envVal gs with _ | vg <;>
  rcases hvl : envVal ls with _ | vl <;>
  rcases oc with _ | c <;>
  simp [NewHTTPConfig, ApplyHTTPEnvConfigs, hred, compressionEnvOpts, hT, hL, hvg, hvl,
    envCompressionVal, optsOf, asHTTPOptions, NewHTTPOption, WithCompression,
    newGenericOption, prec3, httpDefaultConfig]

/-- Compression precedence for `NewGRPCConfig`. -/
theorem prec_compression_grpc (gs ls : String) (oc : Option Compression) :
    (NewGRPCConfig (compressionEnv gs ls) (asGRPCOptions (optsOf WithCompression oc))).logs.compression
      = prec3 oc (envCompressionVal ls) (envCompressionVal gs) NoCompression := by
  have hpre : (grpcConfigPreFinalize (compressionEnv gs ls)
        (asGRPCOptions (optsOf WithCompression oc))).logs.compression
      = prec3 oc (envCompressionVal ls) (envCompressionVal gs) NoCompression := by
    have hred : getOptionsFromEnv (compressionEnv gs ls)
        = compressionEnvOpts (compressionEnv gs ls) "COMPRESSION"
          ++ compressionEnvOpts (compressionEnv gs ls) "LOGS_COMPRESSION" :=
      getOptionsFromEnv_only_compression _ rfl rfl rfl rfl rfl rfl rfl rfl rfl rfl rfl rfl rfl rfl
    have hT : getEnvValue (compressionEnv gs ls) "COMPRESSION" = envVal gs := rfl
    have hL : getEnvValue (compressionEnv gs ls) "LOGS_COMPRESSION" = envVal ls := rfl
    rcases hvg : envVal gs with _ | vg <;>
    rcases hvl : envVal ls with _ | vl <;>
    rcases oc with _ | c <;>
    simp [grpcConfigPreFinalize, ApplyGRPCEnvConfigs, hred, compressionEnvOpts, hT, hL, hvg, hvl,
      envCompressionVal, optsOf, asGRPCOptions, NewGRPCOption, WithCompression,
      newGenericOption, prec3, grpcDefaultConfig]
  exact ((grpcFinalize_preserves_signal _).2.1).trans hpre

/-- Headers precedence for `NewHTTPConfig`. -/
theorem prec_headers_http (gs ls : String) (oh : Option Headers) :
    (NewHTTPConfig (headersEnv gs ls) (asHTTPOptions (optsOf WithHeaders oh))).logs.headers
      = prec3 (oh.map some) ((envHeadersVal ls).map some) ((envHeadersVal gs).map some) none := by
  have hred : getOptionsFromEnv (headersEnv gs ls)
      = headersEnvOpts (headersEnv gs ls) "HEADERS"
        ++ headersEnvOpts (headersEnv gs ls) "LOGS_HEADERS" :=
    getOptionsFromEnv_only_headers _ rfl rfl rfl rfl rfl rfl rfl rfl rfl rfl rfl rfl rfl rfl
  have hT : getEnvValue (headersEnv gs ls) "HEADERS" = envVal gs := rfl
  have hL : getEnvValue (headersEnv gs ls) "LOGS_HEADERS" = envVal ls := rfl
  rcases hvg : envVal gs with _ | vg <;>
  rcases hvl : envVal ls with _ | vl <;>
  rcases oh with _ | h <;>
  simp [NewHTTPConfig, ApplyHTTPEnvConfigs, hred, headersEnvOpts, hT, hL, hvg, hvl,
    envHeadersVal, optsOf, asHTTPOptions, NewHTTPOption, WithHeaders,
    newGenericOption, prec3, httpDefaultConfig]

/-- Headers precedence for `NewGRPCConfig`. -/
theorem prec_headers_grpc (gs ls : String) (oh : Option Headers) :
    (NewGRPCConfig (headersEnv gs ls) (asGRPCOptions (optsOf WithHeaders oh))).logs.headers
      = prec3 (oh.map some) ((envHeadersVal ls).map some) ((envHeadersVal gs).map some) none := by
  have hpre : (grpcConfigPreFinalize (headersEnv gs ls)
        (asGRPCOptions (optsOf WithHeaders oh))).logs.headers
      = prec3 (oh.map some) ((envHeadersVal ls).map some) ((envHeadersVal gs).map some) none := by
    have hred : getOptionsFromEnv (headersEnv gs ls)
        = headersEnvOpts (headersEnv gs ls) "HEADERS"
          ++ headersEnvOpts (headersEnv gs ls) "LOGS_HEADERS" :=
      getOptionsFromEnv_only_headers _ rfl rfl rfl rfl rfl rfl rfl rfl rfl rfl rfl rfl rfl rfl
    have hT : getEnvValue (headersEnv gs ls) "HEADERS" = envVal gs := rfl
    have hL : getEnvValue (headersEnv gs ls) "LOGS_HEADERS" = envVal ls := rfl
    rcases hvg : envVal gs with _ | vg <;>
    rcases hvl : envVal ls with _ | vl <;>
    rcases oh with _ | h <;>
    simp [grpcConfigPreFinalize, ApplyGRPCEnvConfigs, hred, headersEnvOpts, hT, hL, hvg, hvl,
      envHeadersVal, optsOf, asGRPCOptions, NewGRPCOption, WithHeaders,
      newGenericOption, prec3, grpcDefaultConfig]
  exact ((grpcFinalize_preserves_signal _).2.2.1).trans hpre

/-- Insecure-flag precedence for `NewHTTPConfig`. -/
theorem prec_insecure_http (gs ls : String) (ob : Option Bool) :
    (NewHTTPConfig (insecureEnv gs ls) (asHTTPOptions (optsOf withInsecure ob))).logs.insecure
      = prec3 ob (envBoolVal ls) (envBoolVal gs) false := by
  have hred : getOptionsFromEnv (insecureEnv gs ls)
      = insecureEnvOpts (insecureEnv gs ls) "INSECURE"
        ++ insecureEnvOpts (insecureEnv gs ls) "LOGS_INSECURE" :=
    getOptionsFromEnv_only_insecure _ rfl rfl rfl rfl rfl rfl rfl rfl rfl rfl rfl rfl rfl rfl
  have hT : (getEnvValue (insecureEnv gs ls) "INSECURE").bind parseBool = envBoolVal gs := rfl
  have hL : (getEnvValue (insecureEnv gs ls) "LOGS_INSECURE").bind parseBool = envBoolVal ls := rfl
  rcases hvg : envBoolVal gs with _ | (_ | _) <;>
  rcases hvl : envBoolVal ls with _ | (_ | _) <;>
  rcases ob with _ | (_ | _) <;>
  simp [NewHTTPConfig, ApplyHTTPEnvConfigs, hred, insecureEnvOpts, hT, hL, hvg, hvl,
    withInsecure, WithInsecure, WithSecure, optsOf, asHTTPOptions, NewHTTPOption,
    newGenericOption, prec3, httpDefaultConfig]

/-- Insecure-flag precedence for `NewGRPCConfig`. -/
theorem prec_insecure_grpc (gs ls : String) (ob : Option Bool) :
    (NewGRPCConfig (insecureEnv gs ls) (asGRPCOptions (optsOf withInsecure ob))).logs.insecure
      = prec3 ob (envBoolVal ls) (envBoolVal gs) false := by
  have hpre : (grpcConfigPreFinalize (insecureEnv gs ls)
        (asGRPCOptions (optsOf withInsecure ob))).logs.insecure
      = prec3 ob (envBoolVal ls) (envBoolVal gs) false := by
    have hred : getOptionsFromEnv (insecureEnv gs ls)
        = insecureEnvOpts (insecureEnv gs ls) "INSECURE"
          ++ insecureEnvOpts (insecureEnv gs ls) "LOGS_INSECURE" :=
      getOptionsFromEnv_only_insecure _ rfl rfl rfl rfl rfl rfl rfl rfl rfl rfl rfl rfl rfl rfl
    have hT : (getEnvValue (insecureEnv gs ls) "INSECURE").bind parseBool = envBoolVal gs := rfl
    have hL : (getEnvValue (insecureEnv gs ls) "LOGS_INSECURE").bind parseBool = envBoolVal ls := rfl
    rcases hvg : envBoolVal gs with _ | (_ | _) <;>
    rcases hvl : envBoolVal ls with _ | (_ | _) <;>
    rcases ob with _ | (_ | _) <;>
    simp [grpcConfigPreFinalize, ApplyGRPCEnvConfigs, hred, insecureEnvOpts, hT, hL, hvg, hvl,
      withInsecure, WithInsecure, WithSecure, optsOf, asGRPCOptions, NewGRPCOption,
      newGenericOption, prec3, grpcDefaultConfig]
  exact ((grpcFinalize_preserves_signal _).2.2.2.1).trans hpre

/-- Endpoint precedence for `NewHTTPConfig` (the environment contributes
the URL's host). -/
theorem prec_endpoint_http (gs ls : String) (oe : Option String) :
    (NewHTTPConfig (endpointEnv gs ls) (asHTTPOptions (optsOf WithEndpoint oe))).logs.endpoint
      = prec3 oe ((envURLVal ls).map URL.host) ((envURLVal gs).map URL.host)
          "localhost:4318" := by
  have hred : getOptionsFromEnv (endpointEnv gs ls)
      = genericEndpointEnvOpts (endpointEnv gs ls) ++ signalEndpointEnvOpts (endpointEnv gs ls) :=
    getOptionsFromEnv_only_endpoint _ rfl rfl rfl rfl rfl rfl rfl rfl rfl rfl rfl rfl rfl rfl
  have hT : (getEnvValue (endpointEnv gs ls) "ENDPOINT").bind parseURL = envURLVal gs := rfl
  have hL : (getEnvValue (endpointEnv gs ls) "LOGS_ENDPOINT").bind parseURL = envURLVal ls := rfl
  rcases hvg : envURLVal gs with _ | ug <;>
  rcases hvl : envURLVal ls with _ | ul <;>
  rcases oe with _ | s <;>
  simp [NewHTTPConfig, ApplyHTTPEnvConfigs, hred, genericEndpointEnvOpts, signalEndpointEnvOpts,
    hT, hL, hvg, hvl, httpEndpointGeneric, httpEndpointSignal, newSplitOption,
    WithEndpoint, optsOf, asHTTPOptions, NewHTTPOption, newGenericOption, prec3,
    httpDefaultConfig, defaultHTTPEndpoint_eval]

/-- Endpoint precedence for `NewGRPCConfig` (the environment contributes
the joined host/path dial target). -/
theorem prec_endpoint_grpc (gs ls : String) (oe : Option String) :
    (NewGRPCConfig (endpointEnv gs ls) (asGRPCOptions (optsOf WithEndpoint oe))).logs.endpoint
      = prec3 oe ((envURLVal ls).map fun u => pathJoin u.host u.path)
          ((envURLVal gs).map fun u => pathJoin u.host u.path) "localhost:4317" := by
  have hpre : (grpcConfigPreFinalize (endpointEnv gs ls)
        (asGRPCOptions (optsOf WithEndpoint oe))).logs.endpoint
      = prec3 oe ((envURLVal ls).map fun u => pathJoin u.host u.path)
          ((envURLVal gs).map fun u => pathJoin u.host u.path) "localhost:4317" := by
    have hred : getOptionsFromEnv (endpointEnv gs ls)
        = genericEndpointEnvOpts (endpointEnv gs ls) ++ signalEndpointEnvOpts (endpointEnv gs ls) :=
      getOptionsFromEnv_only_endpoint _ rfl rfl rfl rfl rfl rfl rfl rfl rfl rfl rfl rfl rfl rfl
    have hT : (getEnvValue (endpointEnv gs ls) "ENDPOINT").bind parseURL = envURLVal gs := rfl
    have hL : (getEnvValue (endpointEnv gs ls) "LOGS_ENDPOINT").bind parseURL = envURLVal ls := rfl
    rcases hvg : envURLVal gs with _ | ug <;>
    rcases hvl : envURLVal ls with _ | ul <;>
    rcases oe with _ | s <;>
    simp [grpcConfigPreFinalize, ApplyGRPCEnvConfigs, hred, genericEndpointEnvOpts,
      signalEndpointEnvOpts, hT, hL, hvg, hvl, withEndpointForGRPC, newSplitOption,
      WithEndpoint, optsOf, asGRPCOptions, NewGRPCOption, newGenericOption, prec3,
      grpcDefaultConfig, defaultGRPCEndpoint_eval]
  exact ((grpcFinalize_preserves_signal _).2.2.2.2).trans hpre

/-- TLS precedence for `NewHTTPConfig` (environment values contribute a
`tls.Config` holding the loaded root-CA pool). -/
theorem prec_tls_http (rf : String → Option String) (gs ls : String) (oc : Option TLSConfig) :
    (NewHTTPConfig (tlsEnv rf gs ls) (asHTTPOptions (optsOf WithTLSClientConfig oc))).logs.tlsCfg
      = prec3 (oc.map some)
          ((certOf rf ls).map fun p => some { rootCAs := some p, certificates := [] })
          ((certOf rf gs).map fun p => some { rootCAs := some p, certificates := [] })
          none := by
  have hred : getOptionsFromEnv (tlsEnv rf gs ls) = tlsEnvOpts (tlsEnv rf gs ls) :=
    getOptionsFromEnv_only_certificates _ rfl rfl rfl rfl rfl rfl rfl rfl rfl rfl rfl rfl
  have hG : certPoolOf (tlsEnv rf gs ls) "CERTIFICATE" = certOf rf gs := rfl
  have hL : certPoolOf (tlsEnv rf gs ls) "LOGS_CERTIFICATE" = certOf rf ls := rfl
  have hC1 : clientCertOf (tlsEnv rf gs ls) "CLIENT_CERTIFICATE" "CLIENT_KEY" = none := rfl
  have hC2 : clientCertOf (tlsEnv rf gs ls) "LOGS_CLIENT_CERTIFICATE" "LOGS_CLIENT_KEY" = none := rfl
  rcases hvg : certOf rf gs with _ | pg <;>
  rcases hvl : certOf rf ls with _ | pl <;>
  rcases oc with _ | c <;>
  simp [NewHTTPConfig, ApplyHTTPEnvConfigs, hred, tlsEnvOpts, envTLSConf,
    hG, hL, hC1, hC2, hvg, hvl, WithTLSClientConfig, newSplitOption,
    optsOf, asHTTPOptions, NewHTTPOption, prec3, httpDefaultConfig]

/-- TLS precedence for `NewGRPCConfig` (resolving to transport
credentials; the hard-coded default is the secure system-root TLS). -/
theorem prec_tls_grpc (rf : String → Option String) (gs ls : String) (oc : Option TLSConfig) :
    (NewGRPCConfig (tlsEnv rf gs ls) (asGRPCOptions (optsOf WithTLSClientConfig oc))).logs.grpcCredentials
      = some (prec3 (oc.map fun c => GRPCCreds.tlsCreds (some c))
          ((certOf rf ls).map fun p => GRPCCreds.tlsCreds (some { rootCAs := some p, certificates := [] }))
          ((certOf rf gs).map fun p => GRPCCreds.tlsCreds (some { rootCAs := some p, certificates := [] }))
          (.tlsCreds none)) := by
  have hred : getOptionsFromEnv (tlsEnv rf gs ls) = tlsEnvOpts (tlsEnv rf gs ls) :=
    getOptionsFromEnv_only_certificates _ rfl rfl rfl rfl rfl rfl rfl rfl rfl rfl rfl rfl
  have hG : certPoolOf (tlsEnv rf gs ls) "CERTIFICATE" = certOf rf gs := rfl
  have hL : certPoolOf (tlsEnv rf gs ls) "LOGS_CERTIFICATE" = certOf rf ls := rfl
  have hC1 : clientCertOf (tlsEnv rf gs ls) "CLIENT_CERTIFICATE" "CLIENT_KEY" = none := rfl
  have hC2 : clientCertOf (tlsEnv rf gs ls) "LOGS_CLIENT_CERTIFICATE" "LOGS_CLIENT_KEY" = none := rfl
  rw [show NewGRPCConfig (tlsEnv rf gs ls) (asGRPCOptions (optsOf WithTLSClientConfig oc))
        = grpcFinalize (grpcConfigPreFinalize (tlsEnv rf gs ls)
            (asGRPCOptions (optsOf WithTLSClientConfig oc))) from rfl,
      grpcFinalize_grpcCredentials]
  rcases hvg : certOf rf gs with _ | pg <;>
  rcases hvl : certOf rf ls with _ | pl <;>
  rcases oc with _ | c <;>
  simp [grpcConfigPreFinalize, ApplyGRPCEnvConfigs, hred, tlsEnvOpts, envTLSConf,
    hG, hL, hC1, hC2, hvg, hvl, WithTLSClientConfig, newSplitOption,
    optsOf, asGRPCOptions, NewGRPCOption, prec3, grpcDefaultConfig]

/-- C1: the precedence law, verified independently per setting (endpoint,
compression, headers, timeout, TLS, insecure) and for both builders: with
a generic environment variable value `gs`, a per-signal value `ls`
(absence = unset or blank, and malformed values count as absent, per the
skip policy), and an optional explicit caller option, the effective value
in the returned `Config` is the option's if present, else the per-signal
environment value's, else the generic environment value's, else the
hard-coded default. -/
theorem config_precedence_law :
    (∀ (gs ls : String) (oe : Option String),
      (NewHTTPConfig (endpointEnv gs ls) (asHTTPOptions (optsOf WithEndpoint oe))).logs.endpoint
        = prec3 oe ((envURLVal ls).map URL.host) ((envURLVal gs).map URL.host) "localhost:4318")
    ∧ (∀ (gs ls : String) (oe : Option String),
      (NewGRPCConfig (endpointEnv gs ls) (asGRPCOptions (optsOf WithEndpoint oe))).logs.endpoint
        = prec3 oe ((envURLVal ls).map fun u => pathJoin u.host u.path)
            ((envURLVal gs).map fun u => pathJoin u.host u.path) "localhost:4317")
    ∧ (∀ (gs ls : String) (oc : Option Compression),
      (NewHTTPConfig (compressionEnv gs ls) (asHTTPOptions (optsOf WithCompression oc))).logs.compression
        = prec3 oc (envCompressionVal ls) (envCompressionVal gs) NoCompression)
    ∧ (∀ (gs ls : String) (oc : Option Compression),
      (NewGRPCConfig (compressionEnv gs ls) (asGRPCOptions (optsOf WithCompression oc))).logs.compression
        = prec3 oc (envCompressionVal ls) (envCompressionVal gs) NoCompression)
    ∧ (∀ (gs ls : String) (oh : Option Headers),
      (NewHTTPConfig (headersEnv gs ls) (asHTTPOptions (optsOf WithHeaders oh))).logs.headers
        = prec3 (oh.map some) ((envHeadersVal ls).map some) ((envHeadersVal gs).map some) none)
    ∧ (∀ (gs ls : String) (oh : Option Headers),
      (NewGRPCConfig (headersEnv gs ls) (asGRPCOptions (optsOf WithHeaders oh))).logs.headers
        = prec3 (oh.map some) ((envHeadersVal ls).map some) ((envHeadersVal gs).map some) none)
    ∧ (∀ (gs ls : String) (ot : Option Duration),
      (NewHTTPConfig (timeoutEnv gs ls) (asHTTPOptions (optsOf WithTimeout ot))).logs.timeout
        = prec3 ot (envDurationVal ls) (envDurationVal gs) DefaultTimeout)
    ∧ (∀ (gs ls : String) (ot : Option Duration),
      (NewGRPCConfig (timeoutEnv gs ls) (asGRPCOptions (optsOf WithTimeout ot))).logs.timeout
        = prec3 ot (envDurationVal ls) (envDurationVal gs) DefaultTimeout)
    ∧ (∀ (rf : String → Option String) (gs ls : String) (oc : Option TLSConfig),
      (NewHTTPConfig (tlsEnv rf gs ls) (asHTTPOptions (optsOf WithTLSClientConfig oc))).logs.tlsCfg
        = prec3 (oc.map some)
            ((certOf rf ls).map fun p => some { rootCAs := some p, certificates := [] })
            ((certOf rf gs).map fun p => some { rootCAs := some p, certificates := [] })
            none)
    ∧ (∀ (rf : String → Option String) (gs ls : String) (oc : Option TLSConfig),
      (NewGRPCConfig (tlsEnv rf gs ls) (asGRPCOptions (optsOf WithTLSClientConfig oc))).logs.grpcCredentials
        = some (prec3 (oc.map fun c => GRPCCreds.tlsCreds (some c))
            ((certOf rf ls).map fun p => GRPCCreds.tlsCreds (some { rootCAs := some p, certificates := [] }))
            ((certOf rf gs).map fun p => GRPCCreds.tlsCreds (some { rootCAs := some p, certificates := [] }))
            (.tlsCreds none)))
    ∧ (∀ (gs ls : String) (ob : Option Bool),
      (NewHTTPConfig (insecureEnv gs ls) (asHTTPOptions (optsOf withInsecure ob))).logs.insecure
        = prec3 ob (envBoolVal ls) (envBoolVal gs) false)
    ∧ (∀ (gs ls : String) (ob : Option Bool),
      (NewGRPCConfig (insecureEnv gs ls) (asGRPCOptions (optsOf withInsecure ob))).logs.insecure
        = prec3 ob (envBoolVal ls) (envBoolVal gs) false) :=
  ⟨prec_endpoint_http, prec_endpoint_grpc, prec_compression_http, prec_compression_grpc,
   prec_headers_http, prec_headers_grpc, prec_timeout_http, prec_timeout_grpc,
   prec_tls_http, prec_tls_grpc, prec_insecure_http, prec_insecure_grpc⟩

/-- `splitOnSlash` never returns the empty list. -/
theorem splitOnSlash_ne_nil (cs : List Char) : splitOnSlash cs ≠ [] := by
  induction cs with
  | nil => simp [splitOnSlash]
  | cons c cs ih =>
    simp only [splitOnSlash]
    split
    · simp
    · rcases h : splitOnSlash cs with _ | ⟨s, rest⟩
      · exact absurd h ih
      · simp

/-- Segments produced by `splitOnSlash` contain no separator. -/
theorem splitOnSlash_no_slash (cs : List Char) :
    ∀ s ∈ splitOnSlash cs, '/' ∉ s := by
  induction cs with
  | nil => intro s hs; simp [splitOnSlash] at hs; simp [hs]
  | cons c cs ih =>
    intro s hs
    simp only [splitOnSlash] at hs
    by_cases hc : c = '/'
    · rw [if_pos hc] at hs
      rcases List.mem_cons.mp hs with hs | hs
      · simp [hs]
      · exact ih s hs
    · rw [if_neg hc] at hs
      rcases h : splitOnSlash cs with _ | ⟨t, rest⟩
      · exact absurd h (splitOnSlash_ne_nil cs)
      · rw [h, List.modifyHead_cons] at hs
        rcases List.mem_cons.mp hs with hs | hs
        · subst hs
          intro hmem
          rcases List.mem_cons.mp hmem with h1 | h1
          · exact hc h1.symm
          · exact ih t (h ▸ List.mem_cons_self t rest) h1
        · exact ih s (h ▸ List.mem_cons_of_mem t hs)

/-- The empty stack is normal. -/
theorem NormalStack_nil (rooted : Bool) : NormalStack rooted [] :=
  ⟨0, [], by simp, by simp, fun _ => rfl⟩

/-- One cleaning step preserves the stack invariant. -/
theorem normStep_normal (rooted : Bool) (st : List (List Char)) (seg : List Char)
    (hst : NormalStack rooted st) (hseg : '/' ∉ seg) :
    NormalStack rooted (normStep rooted st seg) := by
  obtain ⟨k, rest, hsteq, hrest, hk⟩ := hst
  by_cases h0 : seg = [] ∨ seg = dotSeg
  · unfold normStep
    rw [if_pos h0]
    exact ⟨k, rest, hsteq, hrest, hk⟩
  · by_cases hdd : seg = dotdotSeg
    · subst hdd
      unfold normStep
      rw [if_neg h0, if_pos rfl]
      cases hlast : st.getLast? with
      | none =>
        have hstnil : st = [] := List.getLast?_eq_none_iff.mp hlast
        dsimp only
        by_cases hr : rooted = true
        · rw [if_pos hr]
          exact ⟨k, rest, hsteq, hrest, hk⟩
        · rw [if_neg hr]
          subst hstnil
          exact ⟨1, [], by simp, by simp, fun h => absurd h hr⟩
      | some l =>
        have hmem : l ∈ st := by
          obtain ⟨h, rfl⟩ := List.mem_getLast?_eq_getLast (Option.mem_def.mpr hlast)
          exact List.getLast_mem h
        dsimp only
        by_cases hl : l = dotdotSeg
        · rw [if_pos hl]
          by_cases hr : rooted = true
          · rw [if_pos hr]
            exact ⟨k, rest, hsteq, hrest, hk⟩
          · rw [if_neg hr]
            have hrestnil : rest = [] := by
              by_contra hrne
              rw [hsteq, List.getLast?_append_of_ne_nil _ hrne] at hlast
              have : l ∈ rest := by
                obtain ⟨h, rfl⟩ := List.mem_getLast?_eq_getLast (Option.mem_def.mpr hlast)
                exact List.getLast_mem h
              exact (hrest l this).2 hl
            refine ⟨k + 1, [], ?_, by simp, fun h => absurd h hr⟩
            rw [hsteq, hrestnil, List.append_nil, List.append_nil,
              List.replicate_succ' k dotdotSeg]
        · rw [if_neg hl]
          have hrestne : rest ≠ [] := by
            intro hrnil
            rw [hsteq, hrnil, List.append_nil] at hmem
            exact hl (List.eq_of_mem_replicate hmem)
          refine ⟨k, rest.dropLast, ?_, ?_, hk⟩
          · rw [hsteq, List.dropLast_append_of_ne_nil _ hrestne]
          · intro s hs
            exact hrest s (List.dropLast_subset rest hs)
    · unfold normStep
      rw [if_neg h0, if_neg hdd]
      push_neg at h0
      refine ⟨k, rest ++ [seg], by rw [hsteq, List.append_assoc], ?_, hk⟩
      intro s hs
      rcases List.mem_append.mp hs with hs | hs
      · exact hrest s hs
      · rcases List.mem_singleton.mp hs with rfl
        exact ⟨⟨h0.1, h0.2, hseg⟩, hdd⟩

/-- Folding cleaning steps over separator-free segments preserves the
stack invariant. -/
theorem foldl_normStep_normal (rooted : Bool) (segs : List (List Char)) :
    ∀ st, NormalStack rooted st → (∀ s ∈ segs, '/' ∉ s) →
      NormalStack rooted (segs.foldl (normStep rooted) st) := by
  induction segs with
  | nil => intro st h _; simpa using h
  | cons seg rest ih =>
    intro st h hall
    rw [List.foldl_cons]
    exact ih _ (normStep_normal rooted st seg h (hall seg (List.mem_cons_self seg rest)))
      fun s hs => hall s (List.mem_cons_of_mem seg hs)

/-- The cleaned segment stack of any separator-free segment list is
normal. -/
theorem normSegs_normal (rooted : Bool) (segs : List (List Char))
    (hall : ∀ s ∈ segs, '/' ∉ s) : NormalStack rooted (normSegs rooted segs) :=
  foldl_normStep_normal rooted segs [] (NormalStack_nil rooted) hall

/-- Splitting a separator-free nonempty word gives that word alone. -/
theorem splitOnSlash_no_slash_word (s : List Char) (hs : '/' ∉ s) :
    splitOnSlash s = [s] := by
  induction s with
  | nil => rfl
  | cons c cs ih =>
    have hc : c ≠ '/' := fun h => hs (h ▸ List.mem_cons_self c cs)
    have hcs : '/' ∉ cs := fun h => hs (List.mem_cons_of_mem c h)
    simp only [splitOnSlash, if_neg hc, ih hcs, List.modifyHead_cons]

/-- Splitting a word, a separator, and a tail splits at that separator. -/
theorem splitOnSlash_append (a t : List Char) (ha : '/' ∉ a) :
    splitOnSlash (a ++ '/' :: t) = a :: splitOnSlash t := by
  induction a with
  | nil => simp [splitOnSlash]
  | cons c a ih =>
    have hc : c ≠ '/' := fun h => ha (h ▸ List.mem_cons_self c a)
    have ha' : '/' ∉ a := fun h => ha (List.mem_cons_of_mem c h)
    have hstep : splitOnSlash ((c :: a) ++ '/' :: t)
        = List.modifyHead (c :: ·) (splitOnSlash (a ++ '/' :: t)) := by
      simp only [List.cons_append, splitOnSlash, if_neg hc]
      rfl
    rw [hstep, ih ha', List.modifyHead_cons]

/-- Splitting the rendering of well-formed segments recovers them. -/
theorem splitOnSlash_joinSegs (segs : List (List Char))
    (hall : ∀ s ∈ segs, s ≠ [] ∧ '/' ∉ s) :
    splitOnSlash (joinSegs segs) = if segs = [] then [[]] else segs := by
  induction segs with
  | nil => rfl
  | cons s rest ih =>
    have hs := hall s (List.mem_cons_self s rest)
    cases rest with
    | nil => simp [joinSegs, splitOnSlash_no_slash_word s hs.2]
    | cons t rest' =>
      have hall' : ∀ x ∈ t :: rest', x ≠ [] ∧ '/' ∉ x :=
        fun x hx => hall x (List.mem_cons_of_mem s hx)
      simp only [joinSegs]
      rw [splitOnSlash_append _ _ hs.2, ih hall']
      simp

/-- Cleaning steps are the identity on well-formed non-`".."` segments. -/
theorem foldl_normStep_id (rooted : Bool) (segs : List (List Char)) :
    ∀ st, (∀ s ∈ segs, GoodSeg s ∧ s ≠ dotdotSeg) →
      segs.foldl (normStep rooted) st = st ++ segs := by
  induction segs with
  | nil => intro st _; simp
  | cons seg rest ih =>
    intro st hall
    have hseg := hall seg (List.mem_cons_self seg rest)
    have hstep : normStep rooted st seg = st ++ [seg] := by
      unfold normStep
      rw [if_neg (by push_neg; exact ⟨hseg.1.1, hseg.1.2.1⟩), if_neg hseg.2]
    rw [List.foldl_cons, hstep,
      ih _ fun s hs => hall s (List.mem_cons_of_mem seg hs), List.append_assoc]
    rfl

/-- `path.Clean` is the identity on a rendered rooted path whose segments
are well-formed and free of `".."`. -/
theorem goClean_render_rooted (segs : List (List Char))
    (hall : ∀ s ∈ segs, GoodSeg s ∧ s ≠ dotdotSeg) :
    goClean ⟨renderSegs true segs⟩ = ⟨renderSegs true segs⟩ := by
  have hdata : (String.mk (renderSegs true segs)).data = '/' :: joinSegs segs := rfl
  rw [goClean, hdata]
  dsimp only
  simp only [eq_self_iff_true, decide_True]
  have hsplit : splitOnSlash ('/' :: joinSegs segs) = [] :: splitOnSlash (joinSegs segs) := by
    simp [splitOnSlash]
  have hnorm : normSegs true ([] :: splitOnSlash (joinSegs segs))
      = (splitOnSlash (joinSegs segs)).foldl (normStep true) [] := by
    rw [normSegs, List.foldl_cons]
    congr 1
  cases hsegs : segs with
  | nil =>
    subst hsegs
    rfl
  | cons s0 rest =>
    rw [← hsegs]
    have hjs : splitOnSlash (joinSegs segs) = segs := by
      rw [splitOnSlash_joinSegs segs fun s hs => ⟨(hall s hs).1.1, (hall s hs).1.2.2⟩,
        if_neg (by simp [hsegs])]
    rw [hsplit, hnorm, hjs, foldl_normStep_id true segs [] hall, List.nil_append]
    have hne : renderSegs true segs ≠ [] := by simp [renderSegs]
    rw [if_neg hne]

/-- Every `goClean` result is either `"."` or a rendered normal stack. -/
theorem goClean_structure (s : String) :
    goClean s = "." ∨ ∃ rooted segs, NormalStack rooted segs
      ∧ goClean s = ⟨renderSegs rooted segs⟩ ∧ renderSegs rooted segs ≠ [] := by
  rcases hd : s.data with _ | ⟨c, cs⟩
  · left; rw [goClean, hd]
  · rw [goClean, hd]
    dsimp only
    split
    · left; rfl
    · next hne =>
      right
      exact ⟨decide (c = '/'), normSegs (decide (c = '/')) (splitOnSlash (c :: cs)),
        normSegs_normal _ _ (splitOnSlash_no_slash (c :: cs)), rfl, hne⟩

/-- Trimming is the identity on a word with no surrounding whitespace. -/
theorem trimChars_id (cs : List Char)
    (h1 : ∀ c, cs.head? = some c → isSpaceChar c = false)
    (h2 : ∀ c, cs.getLast? = some c → isSpaceChar c = false) :
    trimChars cs = cs := by
  unfold trimChars trimLeftChars trimRightChars
  have hL : cs.dropWhile isSpaceChar = cs := by
    cases cs with
    | nil => rfl
    | cons c cs' =>
      rw [List.dropWhile_cons_of_neg]
      simp [h1 c rfl]
  rw [hL]
  cases hcl : cs.getLast? with
  | none =>
    rw [List.getLast?_eq_none_iff.mp hcl]
    rfl
  | some l =>
    have hR : cs.reverse.dropWhile isSpaceChar = cs.reverse := by
      cases hr : cs.reverse with
      | nil => rfl
      | cons d ds =>
        rw [List.dropWhile_cons_of_neg]
        have hd : cs.getLast? = some d := by
          rw [← List.head?_reverse, hr]; rfl
        simp [h2 d hd]
    rw [hR, List.reverse_reverse]

/-- Unrooted rendering is the plain segment join. -/
theorem renderSegs_false (segs : List (List Char)) :
    renderSegs false segs = joinSegs segs := by
  simp [renderSegs]

/-- Rooted rendering prefixes a separator. -/
theorem renderSegs_true (segs : List (List Char)) :
    renderSegs true segs = '/' :: joinSegs segs := rfl

/-- A join starting from a nonempty segment is nonempty. -/
theorem joinSegs_ne_nil (s0 : List Char) (rest : List (List Char)) (h : s0 ≠ []) :
    joinSegs (s0 :: rest) ≠ [] := by
  cases rest with
  | nil => exact h
  | cons t rest' => simp [joinSegs, h]

/-- The head of a join starting from a nonempty segment. -/
theorem joinSegs_head? (s0 : List Char) (rest : List (List Char)) (h : s0 ≠ []) :
    (joinSegs (s0 :: rest)).head? = s0.head? := by
  cases rest with
  | nil => rfl
  | cons t rest' =>
    show (s0 ++ '/' :: joinSegs (t :: rest')).head? = s0.head?
    rw [List.head?_append_of_ne_nil _ h]

/-- Trimming is the identity on a string with no surrounding whitespace. -/
theorem trimSpace_id (r : String)
    (h1 : ∀ c, r.data.head? = some c → isSpaceChar c = false)
    (h2 : ∀ c, r.data.getLast? = some c → isSpaceChar c = false) :
    trimSpace r = r := by
  show String.mk (trimChars r.data) = r
  rw [trimChars_id r.data h1 h2]

/-- `cleanPath` is the identity on a trim-stable, clean, absolute path. -/
theorem cleanPath_fixed (r d : String) (ht : trimSpace r = r) (hc : goClean r = r)
    (hne : r ≠ ".") (habs : goIsAbs r = true) : cleanPath r d = r := by
  simp only [cleanPath, ht, hc]
  rw [if_neg hne, if_neg (by simp [habs])]

/-- Conditional idempotence of `cleanPath`: when the default is itself
stable, the cleaned trimmed path does not begin with a `".."` segment,
and it does not end in whitespace, a second application changes nothing. -/
theorem cleanPath_cond_idem (p d : String)
    (hd : cleanPath d d = d)
    (hdd : ¬((goClean (trimSpace p)).data = dotdotSeg
        ∨ dotdotSeg ++ ['/'] <+: (goClean (trimSpace p)).data))
    (hws : ∀ c, (goClean (trimSpace p)).data.getLast? = some c → isSpaceChar c = false) :
    cleanPath (cleanPath p d) d = cleanPath p d := by
  by_cases h1 : goClean (trimSpace p) = "."
  · have hcp : cleanPath p d = d := by
      simp only [cleanPath]
      rw [if_pos h1]
    rw [hcp, hd]
  · rcases goClean_structure (trimSpace p) with hs | ⟨rooted, segs, ⟨k, rest, hseq, hrest, hk⟩, hval, hrne⟩
    · exact absurd hs h1
    · cases rooted with
      | true =>
        have hk0 : k = 0 := hk rfl
        subst hk0
        simp only [List.replicate_zero, List.nil_append] at hseq
        have hall : ∀ s ∈ segs, GoodSeg s ∧ s ≠ dotdotSeg := fun s hs =>
          hrest s (hseq ▸ hs)
        have hdata : (goClean (trimSpace p)).data = '/' :: joinSegs segs := by
          rw [hval]
          exact renderSegs_true segs
        have hhead : ∀ c, (goClean (trimSpace p)).data.head? = some c → isSpaceChar c = false := by
          intro c hc
          rw [hdata] at hc
          simp at hc
          subst hc
          decide
        have htrim : trimSpace (goClean (trimSpace p)) = goClean (trimSpace p) :=
          trimSpace_id _ hhead hws
        have hclean : goClean (goClean (trimSpace p)) = goClean (trimSpace p) := by
          rw [hval]
          exact goClean_render_rooted segs hall
        have habs : goIsAbs (goClean (trimSpace p)) = true := by
          simp [goIsAbs, hdata]
        have hcp : cleanPath p d = goClean (trimSpace p) := by
          simp only [cleanPath]
          rw [if_neg h1, if_neg (by simp [habs])]
        rw [hcp]
        exact cleanPath_fixed _ d htrim hclean h1 habs
      | false =>
        have hsegs_ne : segs ≠ [] := by
          intro h
          apply hrne
          rw [h, renderSegs_false]
          rfl
        have hdata0 : (goClean (trimSpace p)).data = joinSegs segs := by
          rw [hval]
          exact renderSegs_false segs
        have hk0 : k = 0 := by
          by_contra hkne
          obtain ⟨k', rfl⟩ : ∃ k', k = k' + 1 := ⟨k - 1, by omega⟩
          rw [List.replicate_succ, List.cons_append] at hseq
          apply hdd
          rw [hdata0, hseq]
          cases hrl : List.replicate k' dotdotSeg ++ rest with
          | nil =>
            left
            rfl
          | cons x xs =>
            right
            refine ⟨joinSegs (x :: xs), ?_⟩
            show dotdotSeg ++ ['/'] ++ joinSegs (x :: xs) = joinSegs (dotdotSeg :: x :: xs)
            simp [joinSegs]
        subst hk0
        simp only [List.replicate_zero, List.nil_append] at hseq
        have hall : ∀ s ∈ segs, GoodSeg s ∧ s ≠ dotdotSeg := by
          intro s hs
          rw [hseq] at hs
          exact hrest s hs
        obtain ⟨s0, rest2, rfl⟩ := List.exists_cons_of_ne_nil hsegs_ne
        have hs0 := (hall s0 (List.mem_cons_self s0 rest2)).1
        obtain ⟨c0, cs0, hc0⟩ := List.exists_cons_of_ne_nil hs0.1
        have hc0slash : c0 ≠ '/' := by
          intro h
          exact hs0.2.2 (by rw [hc0, h]; exact List.mem_cons_self _ _)
        have hjoin_ne : joinSegs (s0 :: rest2) ≠ [] := joinSegs_ne_nil s0 rest2 hs0.1
        have hnabs : goIsAbs (goClean (trimSpace p)) = false := by
          simp only [goIsAbs, hdata0, hc0]
          rw [joinSegs_head? (c0 :: cs0) rest2 (by simp)]
          simp [hc0slash]
        have hcp : cleanPath p d = "/" ++ goClean (trimSpace p) := by
          simp only [cleanPath]
          rw [if_neg h1, if_pos (by simp [hnabs])]
        have hrdata : ("/" ++ goClean (trimSpace p)).data = '/' :: joinSegs (s0 :: rest2) := by
          rw [String.data_append, hdata0]
          rfl
        have hrstr : ("/" ++ goClean (trimSpace p)) = String.mk (renderSegs true (s0 :: rest2)) := by
          apply String.ext
          rw [hrdata]
          exact (renderSegs_true _).symm
        have htrim : trimSpace ("/" ++ goClean (trimSpace p)) = "/" ++ goClean (trimSpace p) := by
          apply trimSpace_id
          · intro c hc
            rw [hrdata] at hc
            simp at hc
            subst hc
            decide
          · intro c hc
            rw [hrdata] at hc
            rw [show ('/' :: joinSegs (s0 :: rest2)) = ['/'] ++ joinSegs (s0 :: rest2) from rfl,
              List.getLast?_append_of_ne_nil _ hjoin_ne] at hc
            exact hws c (by rw [hdata0]; exact hc)
        have hclean : goClean ("/" ++ goClean (trimSpace p)) = "/" ++ goClean (trimSpace p) := by
          rw [hrstr]
          exact goClean_render_rooted _ hall
        have hne2 : ("/" ++ goClean (trimSpace p)) ≠ "." := by
          intro h
          have h' := congrArg String.data h
          rw [hrdata] at h'
          simp at h'
        have habs2 : goIsAbs ("/" ++ goClean (trimSpace p)) = true := by
          simp [goIsAbs, hrdata]
        rw [hcp]
        exact cleanPath_fixed _ d htrim hclean hne2 habs2

/-- C3 (counterexample): `cleanPath` is not idempotent for all inputs:
`cleanPath("..", "/v1/logs")` is `"/.."`, and cleaning that again yields
`"/"`. -/
theorem cleanPath_idem_counterexample :
    cleanPath ".." "/v1/logs" = "/.."
    ∧ cleanPath (cleanPath ".." "/v1/logs") "/v1/logs" = "/"
    ∧ cleanPath (cleanPath ".." "/v1/logs") "/v1/logs" ≠ cleanPath ".." "/v1/logs" :=
  ⟨by decide, by decide, by decide⟩

/-- C3 (amended): `cleanPath("", d) = d` and `cleanPath("dir/..", d) = d`
for every default `d`, and `cleanPath("dir/a", "") = "/dir/a"`;
idempotence `cleanPath(cleanPath(p, d), d) = cleanPath(p, d)` does not
hold for all `p` and `d`, but holds whenever the default is itself stable
(`cleanPath(d, d) = d`), the cleaned trimmed `p` does not begin with a
`".."` segment, and it does not end in a whitespace character. -/
theorem cleanPath_laws :
    (∀ d, cleanPath "" d = d)
    ∧ (∀ d, cleanPath "dir/.." d = d)
    ∧ cleanPath "dir/a" "" = "/dir/a"
    ∧ (∀ p d, cleanPath d d = d →
        ¬((goClean (trimSpace p)).data = dotdotSeg
            ∨ dotdotSeg ++ ['/'] <+: (goClean (trimSpace p)).data) →
        (∀ c, (goClean (trimSpace p)).data.getLast? = some c → isSpaceChar c = false) →
        cleanPath (cleanPath p d) d = cleanPath p d) := by
  refine ⟨?_, ?_, by decide, cleanPath_cond_idem⟩
  · intro d
    simp only [cleanPath]
    rw [show goClean (trimSpace "") = "." from by decide, if_pos rfl]
  · intro d
    simp only [cleanPath]
    rw [show goClean (trimSpace "dir/..") = "." from by decide, if_pos rfl]

/-- Witness for C3 at a concrete stable default and a benign path. -/
theorem cleanPath_laws_witness :
    cleanPath "/v1/logs" "/v1/logs" = "/v1/logs"
    ∧ cleanPath (cleanPath "/a/b" "/v1/logs") "/v1/logs" = cleanPath "/a/b" "/v1/logs" :=
  ⟨by decide,
   cleanPath_laws.2.2.2 "/a/b" "/v1/logs" (by decide) (by decide)
     (by
       intro c hc
       rw [show (goClean (trimSpace "/a/b")).data.getLast? = some 'b' from by decide] at hc
       injection hc with h
       subst h
       decide)⟩

